import Mathlib

/-!
Verification of the session-analyzer timeline engine
(`.codex/tools/session-analyzer/parser.py`).

Shallow embedding conventions:
* Python strings are modeled as `Str := List Char`.
* Decoded JSON values are modeled by the inductive `JVal`.  A transcript line
  is modeled by `Line`: it either strips to nothing (`blank`), fails JSON
  decoding (`malformed`), or decodes to a value (`valid`); the textual JSON
  grammar itself is not the subject of any claim and is abstracted away.
* ISO-8601 timestamps are abstracted to decimal epoch-second strings: a
  parseable timestamp is a nonempty digit string whose value is the epoch
  second; anything else fails to parse, exactly like the source's
  `except: return None`.  Rendering a timestamp (`isoformat`) is modeled as
  rendering its decimal value.
* Python `f"{value}"` rendering of a decoded value is modeled by `pystr`;
  for containers the exact repr layout is abstracted (a fixed deterministic
  rendering), which no claim depends on.
* Fields that the source reads with string operations are modeled as strings;
  inputs that would raise `TypeError` in the source (e.g. slicing a number)
  are outside every claim and are rendered via `pystr` where needed.
* The `raw` payload echo (`include_raw=True`, `json.dumps` of the record) and
  the aggregate `Counter` fields of the session are not modeled: no claim
  mentions them.
-/

abbrev Str := List Char

def S (s : String) : Str := s.data

/-- ASCII white-space exactly as Python's `\s` class (and `str.strip`). -/
def is_ws (c : Char) : Bool :=
  c = ' ' || c = '\t' || c = '\n' || c = '\r' || c = '\x0b' || c = '\x0c'

/-- Python `str.strip()`. -/
def strip_str (s : Str) : Str :=
  ((s.dropWhile is_ws).reverse.dropWhile is_ws).reverse

/-- Replace every maximal run of white-space by a single blank.
The flag records whether the previous character was white-space. -/
def collapse_core : Bool → Str → Str
  | _, [] => []
  | prev, c :: rest =>
    if is_ws c then
      if prev then collapse_core true rest else ' ' :: collapse_core true rest
    else c :: collapse_core false rest

/-- Python `re.sub(r"\s+", " ", text.strip())`. -/
def collapse_ws (s : Str) : Str := collapse_core false (strip_str s)

/-- Decimal digits of a natural number (fuel-driven so that it reduces in the
kernel; the fuel `n + 1` always suffices). -/
def natDigsCore : Nat → Nat → Str → Str
  | 0, _, acc => acc
  | fuel + 1, n, acc =>
    let d := Char.ofNat (48 + n % 10)
    if n < 10 then d :: acc else natDigsCore fuel (n / 10) (d :: acc)

def natDigs (n : Nat) : Str := natDigsCore (n + 1) n []

/-- Python `f"{n}"` for an integer. -/
def intStr (n : Int) : Str :=
  if n < 0 then '-' :: natDigs n.natAbs else natDigs n.toNat

/-- `summarize_text` (parser.py:76-82). -/
def summarize_text (text : Str) (max_len : Nat := 70) : Str :=
  let cleaned := collapse_ws text
  if cleaned = [] then S "(no summary)"
  else if cleaned.length ≤ max_len then cleaned
  else cleaned.take (max_len - 3) ++ S "..."

/-- `truncate_text` (parser.py:85-90).  `if max_chars and len(text) > max_chars`
is the conjunction below (`max_chars` is a count; the CLI default is 0 = no
truncation). -/
def truncate_text (text : Str) (max_chars : Nat) : Str :=
  if text = [] then []
  else if max_chars ≠ 0 ∧ text.length > max_chars then
    text.take max_chars ++ S "\n...[truncated " ++ natDigs (text.length - max_chars)
      ++ S " chars]"
  else text

/-- Tenths of minutes from whole seconds; the source formats
`delta.total_seconds() / 60.0` with `.1f`.  Floating point is not modeled:
the tenths digit is obtained by integer truncation, which no claim depends
on (the claims concern only presence and sign of the duration). -/
def minutes_tenths (secs : Nat) : Str :=
  let t := secs * 10 / 60
  natDigs (t / 10) ++ ('.' :: natDigs (t % 10))

/-- `format_duration` (parser.py:93-98).  `datetime` objects are never falsy in
Python, so the `if not start_ts or not end_ts` guard is exactly the `none`
test.  The negative branch can only fire when called with reversed bounds. -/
def format_duration : Option Nat → Option Nat → Str
  | some a, some b =>
      if b < a then '-' :: (minutes_tenths (a - b) ++ ['m'])
      else minutes_tenths (b - a) ++ ['m']
  | _, _ => S "?"

/-- Decoded JSON values. -/
inductive JVal where
  | jnull
  | jbool (b : Bool)
  | jstr (s : Str)
  | jnum (n : Int)
  | jarr (elems : List JVal)
  | jobj (fields : List (Str × JVal))

/-- First binding of a key in an object's field list (Python dict keys are
unique, so first = only). -/
def jlookup (fs : List (Str × JVal)) (k : Str) : Option JVal :=
  match fs with
  | [] => none
  | (k2, v) :: rest => if k2 = k then some v else jlookup rest k

/-- `obj.get(k)`: `none` when `obj` is not a dict or lacks the key. -/
def JVal.get (v : JVal) (k : Str) : Option JVal :=
  match v with
  | JVal.jobj fs => jlookup fs k
  | _ => none

/-- Python truthiness of a decoded JSON value. -/
def JVal.truthy : JVal → Bool
  | .jnull => false
  | .jbool b => b
  | .jstr s => !s.isEmpty
  | .jnum n => n != 0
  | .jarr xs => !xs.isEmpty
  | .jobj fs => !fs.isEmpty

/-- Join a list of strings with a separator (Python `sep.join`). -/
def join_sep (sep : Str) : List Str → Str
  | [] => []
  | [x] => x
  | x :: xs => x ++ sep ++ join_sep sep xs

mutual
/-- Python `f"{value}"` of a decoded JSON value.  For numbers and strings this
is exact; for containers the precise repr punctuation is a fixed deterministic
rendering (no claim reads inside it). -/
def pystr : JVal → Str
  | .jnull => S "None"
  | .jbool b => if b then S "True" else S "False"
  | .jstr s => s
  | .jnum n => intStr n
  | .jarr xs => ('[' :: pystr_list xs) ++ [']']
  | .jobj fs => ('\x7b' :: pystr_fields fs) ++ ['\x7d']

def pystr_list : List JVal → Str
  | [] => []
  | [x] => pystr x
  | x :: xs => pystr x ++ S ", " ++ pystr_list xs

def pystr_fields : List (Str × JVal) → Str
  | [] => []
  | [(k, v)] => k ++ S ": " ++ pystr v
  | (k, v) :: fs => k ++ S ": " ++ pystr v ++ S ", " ++ pystr_fields fs
end

/-- `stringify_details` (parser.py:114-122).  A decoded JSON `null` is Python
`None`, hence the second case.  `json.dumps(value, indent=2)` for container
values is abstracted to the deterministic `pystr` rendering (no claim reads
inside it). -/
def stringify_details : Option JVal → Str
  | none => []
  | some JVal.jnull => []
  | some (JVal.jstr s) => s
  | some v => pystr v

/-- `maybe_parse_json` (parser.py:141-149).  The source additionally attempts
`json.loads` on a string value that starts with a brace or bracket, keeping
the string on failure; string-level JSON decoding is not modeled (arguments
arrive as already-structured `JVal`s), so the decode attempt is modeled as
failing and every value is returned unchanged — which is also exactly what the
source does for every non-string value. -/
def maybe_parse_json (v : Option JVal) : Option JVal := v

def digitsVal (s : Str) : Nat := s.foldl (fun a c => a * 10 + (c.toNat - 48)) 0

def str_nat? (s : Str) : Option Nat :=
  if s ≠ [] ∧ s.all Char.isDigit then some (digitsVal s) else none

/-- `parse_ts` (parser.py:40-48) under the timestamp abstraction: a parseable
ISO-8601 timestamp is a nonempty decimal string of its epoch seconds; empty,
missing or malformed values return `none` like the source's
`except: return None`. -/
def parse_ts : Option JVal → Option Nat
  | some (JVal.jstr s) => str_nat? s
  | _ => none

/-- `format_ts` (parser.py:51-54): empty string for a missing timestamp,
the (abstracted) ISO rendering otherwise. -/
def format_ts : Option Nat → Str
  | none => []
  | some n => natDigs n

/-- One content item inside `extract_text` (parser.py:57-66): dict items of
type `input_text`/`output_text` contribute their `text` (default `""`),
everything else contributes nothing. -/
def item_text (item : JVal) : Str :=
  match item with
  | JVal.jobj fs =>
    (match jlookup fs (S "type") with
     | some (JVal.jstr t) =>
        if t = S "input_text" ∨ t = S "output_text" then
          (match jlookup fs (S "text") with
           | some (JVal.jstr s) => s
           | _ => [])
        else []
     | _ => [])
  | _ => []

/-- `extract_text` (parser.py:57-66). -/
def extract_text : Option JVal → Str
  | some (JVal.jstr s) => s
  | some (JVal.jarr items) => (items.map item_text).flatten
  | _ => []

def SKIP_SUBSTRINGS : List Str :=
  [S "<environment_context>", S "agents.md", S "<instructions>",
   S "skills are discovered", S "trigger rules", S "## skills"]

def lower_str (s : Str) : Str := s.map Char.toLower

/-- Substring test (`needle in hay`). -/
def is_sub (needle : Str) : Str → Bool
  | [] => needle.isEmpty
  | c :: rest => needle.isPrefixOf (c :: rest) || is_sub needle rest

/-- `is_instruction_text` (parser.py:69-73). -/
def is_instruction_text (text : Str) : Bool :=
  if text = [] then true
  else SKIP_SUBSTRINGS.any (fun s => is_sub s (lower_str text))

/-- `first_non_instruction` (parser.py:622-626). -/
def first_non_instruction : List Str → Str
  | [] => []
  | msg :: rest =>
    if msg ≠ [] ∧ is_instruction_text msg = false then msg
    else first_non_instruction rest

/-- `format_kv_line` (parser.py:152-159): `key=value` for each listed key that
is present with a non-`None` value. -/
def format_kv_line (label : Str) (data : List (Str × JVal)) (keys : List Str) : Str :=
  let parts := keys.filterMap (fun k =>
    match jlookup data k with
    | some JVal.jnull => none
    | some v => some (k ++ ('=' :: pystr v))
    | none => none)
  if parts = [] then [] else label ++ S ": " ++ join_sep (S ", ") parts

/-- `value or {}` followed by attribute access: a non-dict truthy value would
raise in the source and is outside every claim; it is modeled as the empty
dict. -/
def get_obj (v : Option JVal) : List (Str × JVal) :=
  match v with
  | some (JVal.jobj fs) => fs
  | _ => []

def TOKEN_KEYS : List Str :=
  [S "input_tokens", S "cached_input_tokens", S "output_tokens",
   S "reasoning_output_tokens", S "total_tokens"]

/-- `format_token_count` (parser.py:162-196). -/
def format_token_count (payload : List (Str × JVal)) : Str :=
  let info := get_obj (jlookup payload (S "info"))
  let total := get_obj (jlookup info (S "total_token_usage"))
  let last := get_obj (jlookup info (S "last_token_usage"))
  let total_line := format_kv_line (S "total") total TOKEN_KEYS
  let last_line := format_kv_line (S "last") last TOKEN_KEYS
  let lines :=
    (if total_line = [] then [] else [total_line]) ++
    (if last_line = [] then [] else [last_line]) ++
    (match jlookup info (S "model_context_window") with
     | some JVal.jnull => []
     | some v => [S "context_window=" ++ pystr v]
     | none => [])
  join_sep (S "\n") lines

/-- `summarize_token_count` (parser.py:199-212). -/
def summarize_token_count (payload : List (Str × JVal)) : Str :=
  let info := get_obj (jlookup payload (S "info"))
  let total := get_obj (jlookup info (S "total_token_usage"))
  let last := get_obj (jlookup info (S "last_token_usage"))
  let parts :=
    (match jlookup total (S "total_tokens") with
     | some JVal.jnull => []
     | some v => [S "total=" ++ pystr v]
     | none => []) ++
    (match jlookup last (S "total_tokens") with
     | some JVal.jnull => []
     | some v => [S "last=" ++ pystr v]
     | none => [])
  if parts = [] then S "token_count"
  else strip_str (S "token_count " ++ join_sep (S " ") parts)

/-- `format_session_meta` (parser.py:215-223). -/
def format_session_meta (payload : List (Str × JVal)) : Str :=
  let keys := [S "id", S "cwd", S "originator", S "cli_version",
               S "model_provider", S "source"]
  join_sep (S "\n") (keys.filterMap (fun k =>
    match jlookup payload k with
    | some v => some (k ++ S ": " ++ pystr v)
    | none => none))

/-- `summarize_session_meta` (parser.py:226-236). -/
def summarize_session_meta (payload : List (Str × JVal)) : Str :=
  let pieces := [S "session_meta"] ++
    (match jlookup payload (S "id") with
     | some v => if v.truthy then [S "id=" ++ (pystr v).take 8] else []
     | none => []) ++
    (match jlookup payload (S "cwd") with
     | some v => if v.truthy then [S "cwd=" ++ pystr v] else []
     | none => [])
  join_sep (S " ") pieces

/-- `f"{label}{payload[k]}"` line when the key is present and truthy. -/
def kv_if_truthy (label : Str) (payload : List (Str × JVal)) (k : Str) : List Str :=
  match jlookup payload k with
  | some v => if v.truthy then [label ++ pystr v] else []
  | none => []

/-- `format_turn_context` (parser.py:239-254). -/
def format_turn_context (payload : List (Str × JVal)) : Str :=
  let sandbox := get_obj (jlookup payload (S "sandbox_policy"))
  join_sep (S "\n")
    (kv_if_truthy (S "cwd: ") payload (S "cwd") ++
     kv_if_truthy (S "model: ") payload (S "model") ++
     kv_if_truthy (S "effort: ") payload (S "effort") ++
     kv_if_truthy (S "approval_policy: ") payload (S "approval_policy") ++
     kv_if_truthy (S "sandbox: ") sandbox (S "type"))

/-- `summarize_turn_context` (parser.py:257-265). -/
def summarize_turn_context (payload : List (Str × JVal)) : Str :=
  join_sep (S " ")
    ([S "turn_context"] ++
     kv_if_truthy (S "cwd=") payload (S "cwd") ++
     kv_if_truthy (S "model=") payload (S "model"))

def PREFERRED_ARG_KEYS : List Str :=
  [S "command", S "url", S "file_path", S "path", S "uri", S "workdir",
   S "timeout_ms", S "justification"]

/-- Strict lexicographic order on strings by character code. -/
def str_lt : Str → Str → Bool
  | [], [] => false
  | [], _ :: _ => true
  | _ :: _, [] => false
  | a :: as, b :: bs =>
    if a.toNat < b.toNat then true
    else if a.toNat = b.toNat then str_lt as bs else false

/-- `format_tool_args` (parser.py:268-276).  The source's composite sort key
`(k not in preferred, preferred.index(k) if k in preferred else 999, k)` puts
the present preferred keys first in preferred order, then the remaining keys
alphabetically. -/
def format_tool_args (args : Option JVal) : Str :=
  let parsed := maybe_parse_json args
  match parsed with
  | some (JVal.jobj fs) =>
    let keys := fs.map (fun p => p.1)
    let pref := PREFERRED_ARG_KEYS.filter (fun k => keys.contains k)
    let rest := List.insertionSort (fun a b => str_lt a b = true ∨ a = b)
      (keys.filter (fun k => !PREFERRED_ARG_KEYS.contains k))
    join_sep (S "\n") ((pref ++ rest).filterMap (fun k =>
      match jlookup fs k with
      | some v => some (k ++ S ": " ++ pystr v)
      | none => none))
  | some (JVal.jarr xs) => join_sep (S "\n") (xs.map pystr)
  | _ => stringify_details parsed

/-- First listed key present in the field list, with its value. -/
def first_present (fs : List (Str × JVal)) : List Str → Option (Str × JVal)
  | [] => none
  | k :: ks =>
    match jlookup fs k with
    | some v => some (k, v)
    | none => first_present fs ks

/-- `summarize_tool_args` (parser.py:279-285). -/
def summarize_tool_args (args : Option JVal) : Str :=
  let parsed := maybe_parse_json args
  match parsed with
  | some (JVal.jobj fs) =>
    (match first_present fs [S "command", S "url", S "file_path", S "path", S "uri"] with
     | some (k, v) => k ++ ('=' :: pystr v)
     | none => summarize_text (stringify_details parsed) 120)
  | _ => summarize_text (stringify_details parsed) 120

/-- Attempt of the regex `Exit code:\s*(\d+)` at the head of the string:
the literal, then greedy white-space, then a maximal nonempty digit run
(the character classes are disjoint, so greediness needs no backtracking). -/
def exit_match_at (l : Str) : Option Str :=
  if (S "Exit code:").isPrefixOf l then
    let ds := ((l.drop 10).dropWhile is_ws).takeWhile Char.isDigit
    if ds = [] then none else some ds
  else none

/-- `re.search(r"Exit code:\s*(\d+)", output)`: the captured digit group at the
leftmost matching position. -/
def search_exit : Str → Option Str
  | [] => none
  | c :: rest =>
    match exit_match_at (c :: rest) with
    | some ds => some ds
    | none => search_exit rest

/-- The captured digit groups at every matching position, left to right (a
specification-side view of "the output contains an exit-code indicator"). -/
def all_exit_matches : Str → List Str
  | [] => []
  | c :: rest =>
    match exit_match_at (c :: rest) with
    | some ds => ds :: all_exit_matches rest
    | none => all_exit_matches rest

/-- `tool_output_error` (parser.py:309-315): compares the *first* captured
digit group against the literal string "0". -/
def tool_output_error (output : Str) : Bool :=
  if output = [] then false
  else
    match search_exit output with
    | some ds => if ds = S "0" then false else true
    | none => false

/-- The element following the first occurrence of `target`, if any. -/
def find_after (target : Str) : List Str → Option Str
  | [] => none
  | x :: xs => if x = target then xs.head? else find_after target xs

/-- The `first_line` local of `summarize_tool_output`: the line after the
first `Output:` line when one exists (staying `""` when `Output:` is last),
otherwise the first non-blank line, otherwise `""`. -/
def output_first_line (lines : List Str) : Str :=
  if lines.contains (S "Output:") then (find_after (S "Output:") lines).getD []
  else lines.headD []

/-- The `pieces` local of `summarize_tool_output`: the `exit=N` piece when the
exit-code regex matched, then the (120-capped) first line when nonempty. -/
def output_pieces (exit_code : Option Str) (first_line : Str) : List Str :=
  (match exit_code with
   | some ds => [S "exit=" ++ ds]
   | none => []) ++
  (if first_line = [] then [] else [first_line.take 120])

/-- `summarize_tool_output` (parser.py:288-306).  `str.splitlines` is modeled
as splitting on a line feed; the difference (trailing newline, `\r`) is erased
by the strip-and-drop-blank filter that immediately follows it. -/
def summarize_tool_output (output : Str) : Str :=
  if output = [] then []
  else
    let lines := ((output.splitOn '\n').map strip_str).filter (fun l => l ≠ [])
    let pieces := output_pieces (search_exit output) (output_first_line lines)
    if pieces = [] then summarize_text output 120
    else join_sep (S " ") pieces

/-- One item of the reasoning `summary` list (parser.py:125-138): strings count
as written, dicts contribute `summary_text or ""`; the source's "key present"
test is invisible after the final drop-empty filter. -/
def reasoning_part (item : JVal) : Str :=
  match item with
  | JVal.jstr s => s
  | JVal.jobj fs =>
    (match jlookup fs (S "summary_text") with
     | some v => if v.truthy then pystr v else []
     | none => [])
  | _ => []

/-- `extract_reasoning_text` (parser.py:125-138). -/
def extract_reasoning_text (payload : List (Str × JVal)) : Str :=
  let sum_parts :=
    match jlookup payload (S "summary") with
    | some (JVal.jarr items) => items.map reasoning_part
    | _ => []
  let content_part :=
    match jlookup payload (S "content") with
    | some v => if v.truthy then [pystr v] else []
    | none => []
  let enc_part :=
    match jlookup payload (S "encrypted_content") with
    | some v => if v.truthy then [S "(encrypted_content present)"] else []
    | none => []
  join_sep (S "\n") ((sum_parts ++ content_part ++ enc_part).filter (fun p => p ≠ []))

/-- One raw transcript line after the source's strip-and-decode step
(parser.py:362-370): it either strips to nothing, fails JSON decoding, or
decodes to a value.  The textual JSON grammar is abstracted away; the claims
concern only the three outcomes. -/
inductive Line where
  | blank
  | malformed
  | valid (obj : JVal)

def line_obj : Line → Option JVal
  | Line.valid obj => some obj
  | _ => none

/-- The canonical timeline event assembled by `add_event` (parser.py:330-360).
The `raw` echo field is omitted (no claim mentions it; it is `""` under the
default `include_raw=False`). -/
structure Event where
  index : Nat
  ts : Str
  epoch : Nat
  category : Str
  source : Str
  kind : Str
  role : Str
  name : Str
  summary : Str
  details : Str
  event_type : Str
  error : Bool
deriving DecidableEq, Repr

def CATEGORY_USER : Str := S "user"

def CATEGORY_ASSISTANT : Str := S "assistant"

def CATEGORY_TOOL : Str := S "tool"

def CATEGORY_THINKING : Str := S "thinking"

def CATEGORY_LIFECYCLE : Str := S "lifecycle"

def CATEGORY_OTHER : Str := S "other"

def EVENT_USER : Str := S "user"

def EVENT_THINKING : Str := S "thinking"

def EVENT_TEXT : Str := S "text"

def EVENT_TOOL_USE : Str := S "tool_use"

def EVENT_POST_TOOL : Str := S "post_tool_use"

def EVENT_LIFECYCLE : Str := S "lifecycle"

/-- `add_event`'s record, before the global index is assigned.
`epoch` is `ts.timestamp() if ts else 0` under the epoch-second abstraction. -/
def mk_event (ts : Option Nat) (category source kind role name summary details
    event_type : Str) (error : Bool) : Event :=
  { index := 0, ts := format_ts ts, epoch := ts.getD 0,
    category := category, source := source, kind := kind, role := role,
    name := name, summary := summary, details := details,
    event_type := event_type, error := error }

/-- `value or ""` for a field the source then treats as a string (a truthy
non-string would raise downstream in the source; outside every claim). -/
def truthy_str (v : Option JVal) : Str :=
  match v with
  | some (JVal.jstr s) => s
  | _ => []

/-- `payload.get(k, "")` for a field used as a string. -/
def get_str_default (payload : List (Str × JVal)) (k : Str) : Str :=
  match jlookup payload k with
  | some (JVal.jstr s) => s
  | _ => []

/-- The `response_item` arm of the classifier (parser.py:421-513): `message`,
`function_call`, `function_call_output`, `reasoning` and `ghost_snapshot`
records each yield one event; any other payload type yields none. -/
def response_item_event (mc : Nat) (ts : Option Nat)
    (payload : List (Str × JVal)) : Option Event :=
  match jlookup payload (S "type") with
  | some (JVal.jstr pt) =>
    if pt = S "message" then
      let role := truthy_str (jlookup payload (S "role"))
      let text := extract_text (jlookup payload (S "content"))
      let details := truncate_text text mc
      let summary := summarize_text text 120
      if role = S "user" then
        some (mk_event ts CATEGORY_USER (S "response_item") (S "message") role []
          summary details EVENT_USER false)
      else if role = S "assistant" then
        some (mk_event ts CATEGORY_ASSISTANT (S "response_item") (S "message") role []
          summary details EVENT_TEXT false)
      else
        some (mk_event ts CATEGORY_OTHER (S "response_item") (S "message") role []
          summary details EVENT_TEXT false)
    else if pt = S "function_call" then
      let name :=
        (match jlookup payload (S "name") with
         | none => S "unknown"
         | some v => pystr v)
      let args := jlookup payload (S "arguments")
      let args_summary := summarize_tool_args args
      let details := truncate_text (format_tool_args args) mc
      let summary := if args_summary = [] then name else name ++ S ": " ++ args_summary
      some (mk_event ts CATEGORY_TOOL (S "response_item") (S "function_call") [] name
        summary details EVENT_TOOL_USE false)
    else if pt = S "function_call_output" then
      let output := get_str_default payload (S "output")
      let call_id := truthy_str (jlookup payload (S "call_id"))
      some (mk_event ts CATEGORY_TOOL (S "response_item") (S "function_call_output")
        [] call_id (summarize_tool_output output) (truncate_text output mc)
        EVENT_POST_TOOL (tool_output_error output))
    else if pt = S "reasoning" then
      let rt := extract_reasoning_text payload
      let summary := summarize_text (if rt = [] then S "reasoning" else rt) 120
      some (mk_event ts CATEGORY_THINKING (S "response_item") (S "reasoning") [] []
        summary (truncate_text rt mc) EVENT_THINKING false)
    else if pt = S "ghost_snapshot" then
      let details := summarize_text (stringify_details (some (JVal.jobj payload))) 200
      some (mk_event ts CATEGORY_LIFECYCLE (S "response_item") (S "ghost_snapshot")
        [] [] (S "ghost_snapshot") details EVENT_LIFECYCLE false)
    else none
  | _ => none

/-- The `event_msg` arm of the classifier (parser.py:515-590).  Unlike
`response_item`, its trailing `else` emits a catch-all event, with kind and
summary `event_type_payload or "event_msg"`. -/
def event_msg_event (mc : Nat) (ts : Option Nat)
    (payload : List (Str × JVal)) : Option Event :=
  match jlookup payload (S "type") with
  | some (JVal.jstr pt) =>
    if pt = S "user_message" then
      let text := get_str_default payload (S "message")
      some (mk_event ts CATEGORY_USER (S "event_msg") (S "user_message") (S "user")
        [] (summarize_text text 120) (truncate_text text mc) EVENT_USER false)
    else if pt = S "agent_message" then
      let text := get_str_default payload (S "message")
      some (mk_event ts CATEGORY_ASSISTANT (S "event_msg") (S "agent_message")
        (S "assistant") [] (summarize_text text 120) (truncate_text text mc)
        EVENT_TEXT false)
    else if pt = S "agent_reasoning" then
      let text := get_str_default payload (S "text")
      let summary := summarize_text (if text = [] then S "agent_reasoning" else text) 120
      some (mk_event ts CATEGORY_THINKING (S "event_msg") (S "agent_reasoning") [] []
        summary (truncate_text text mc) EVENT_THINKING false)
    else if pt = S "token_count" then
      some (mk_event ts CATEGORY_LIFECYCLE (S "event_msg") (S "token_count") [] []
        (summarize_token_count payload) (truncate_text (format_token_count payload) mc)
        EVENT_LIFECYCLE false)
    else
      let k := if pt = [] then S "event_msg" else pt
      some (mk_event ts CATEGORY_OTHER (S "event_msg") k [] [] k
        (summarize_text (stringify_details (some (JVal.jobj payload))) 200)
        EVENT_LIFECYCLE false)
  | some v =>
    let k := if v.truthy then pystr v else S "event_msg"
    some (mk_event ts CATEGORY_OTHER (S "event_msg") k [] [] k
      (summarize_text (stringify_details (some (JVal.jobj payload))) 200)
      EVENT_LIFECYCLE false)
  | none =>
    some (mk_event ts CATEGORY_OTHER (S "event_msg") (S "event_msg") [] []
      (S "event_msg")
      (summarize_text (stringify_details (some (JVal.jobj payload))) 200)
      EVENT_LIFECYCLE false)

/-- The event (at most one) that one decoded line contributes to the stream:
the body of the reading loop of `parse_session` (parser.py:362-590).  Records
whose `type` matches no branch contribute nothing — but their timestamp still
feeds the session bounds, see `session_first_ts`. -/
def line_event (mc : Nat) : Line → Option Event := fun l =>
  match line_obj l with
  | none => none
  | some obj =>
    let ts := parse_ts (obj.get (S "timestamp"))
    match obj.get (S "type") with
    | some (JVal.jstr t) =>
      if t = S "session_meta" then
        let meta := get_obj (obj.get (S "payload"))
        some (mk_event ts CATEGORY_LIFECYCLE (S "session_meta") (S "session_meta")
          [] [] (summarize_session_meta meta)
          (truncate_text (format_session_meta meta) mc) EVENT_LIFECYCLE false)
      else if t = S "turn_context" then
        let payload := get_obj (obj.get (S "payload"))
        some (mk_event ts CATEGORY_LIFECYCLE (S "turn_context") (S "turn_context")
          [] [] (summarize_turn_context payload)
          (truncate_text (format_turn_context payload) mc) EVENT_LIFECYCLE false)
      else if t = S "response_item" then
        response_item_event mc ts (get_obj (obj.get (S "payload")))
      else if t = S "event_msg" then
        event_msg_event mc ts (get_obj (obj.get (S "payload")))
      else none
    | _ => none

/-- The parsed timestamp of a line: `parse_ts(obj.get("timestamp"))`, fed to
the session bounds for *every* decoded line, whether or not the line yields a
timeline event. -/
def line_ts (l : Line) : Option Nat :=
  match line_obj l with
  | some obj => parse_ts (obj.get (S "timestamp"))
  | none => none

/-- `if not first_ts or ts < first_ts: first_ts = ts`. -/
def min_step (acc : Option Nat) (t : Nat) : Option Nat :=
  match acc with
  | none => some t
  | some a => if t < a then some t else some a

/-- `if not last_ts or ts > last_ts: last_ts = ts`. -/
def max_step (acc : Option Nat) (t : Nat) : Option Nat :=
  match acc with
  | none => some t
  | some a => if t > a then some t else some a

def session_first_ts (lines : List Line) : Option Nat :=
  lines.foldl (fun acc l =>
    match line_ts l with
    | none => acc
    | some t => min_step acc t) none

def session_last_ts (lines : List Line) : Option Nat :=
  lines.foldl (fun acc l =>
    match line_ts l with
    | none => acc
    | some t => max_step acc t) none

/-- The payload of a `session_meta` line (`obj.get("payload", {}) or {}`). -/
def line_session_meta (l : Line) : Option (List (Str × JVal)) :=
  match line_obj l with
  | some obj =>
    (match obj.get (S "type") with
     | some (JVal.jstr t) =>
        if t = S "session_meta" then some (get_obj (obj.get (S "payload"))) else none
     | _ => none)
  | none => none

/-- The payload of a `turn_context` line. -/
def line_turn_context (l : Line) : Option (List (Str × JVal)) :=
  match line_obj l with
  | some obj =>
    (match obj.get (S "type") with
     | some (JVal.jstr t) =>
        if t = S "turn_context" then some (get_obj (obj.get (S "payload"))) else none
     | _ => none)
  | none => none

/-- `meta` after the loop: the last `session_meta` payload, `{}` if none. -/
def session_meta_of (lines : List Line) : List (Str × JVal) :=
  ((lines.filterMap line_session_meta).getLast?).getD []

/-- `cli_version = meta.get("cli_version") or cli_version`: the last truthy
value across `session_meta` lines. -/
def session_cli_version (lines : List Line) : Option Str :=
  (lines.filterMap (fun l => (line_session_meta l).bind (fun fs =>
    match jlookup fs (S "cli_version") with
    | some v => if v.truthy then some (pystr v) else none
    | none => none))).getLast?

/-- `model = payload.get("model") or model`: the last truthy value across
`turn_context` lines. -/
def session_model (lines : List Line) : Option Str :=
  (lines.filterMap (fun l => (line_turn_context l).bind (fun fs =>
    match jlookup fs (S "model") with
    | some v => if v.truthy then some (pystr v) else none
    | none => none))).getLast?

/-- The texts appended to `user_messages`: `message` records with role `user`
and `user_message` event records, in line order. -/
def line_user_message (l : Line) : Option Str :=
  match line_obj l with
  | some obj =>
    (match obj.get (S "type") with
     | some (JVal.jstr t) =>
       if t = S "response_item" then
         let payload := get_obj (obj.get (S "payload"))
         (match jlookup payload (S "type") with
          | some (JVal.jstr pt) =>
            if pt = S "message" ∧ truthy_str (jlookup payload (S "role")) = S "user" then
              some (extract_text (jlookup payload (S "content")))
            else none
          | _ => none)
       else if t = S "event_msg" then
         let payload := get_obj (obj.get (S "payload"))
         (match jlookup payload (S "type") with
          | some (JVal.jstr pt) =>
            if pt = S "user_message" then some (get_str_default payload (S "message"))
            else none
          | _ => none)
       else none
     | _ => none)
  | none => none

/-- The texts appended to `assistant_messages`. -/
def line_assistant_message (l : Line) : Option Str :=
  match line_obj l with
  | some obj =>
    (match obj.get (S "type") with
     | some (JVal.jstr t) =>
       if t = S "response_item" then
         let payload := get_obj (obj.get (S "payload"))
         (match jlookup payload (S "type") with
          | some (JVal.jstr pt) =>
            if pt = S "message" ∧ truthy_str (jlookup payload (S "role")) = S "assistant" then
              some (extract_text (jlookup payload (S "content")))
            else none
          | _ => none)
       else if t = S "event_msg" then
         let payload := get_obj (obj.get (S "payload"))
         (match jlookup payload (S "type") with
          | some (JVal.jstr pt) =>
            if pt = S "agent_message" then some (get_str_default payload (S "message"))
            else none
          | _ => none)
       else none
     | _ => none)
  | none => none

/-- Global event indices in emission order (`add_event`'s `index`). -/
def with_indices : Nat → List Event → List Event
  | _, [] => []
  | i, e :: es => { e with index := i } :: with_indices (i + 1) es

/-- The sort key of `sorted(events, key=lambda e: (e["epoch"], e["index"]))`. -/
def ev_le (a b : Event) : Prop :=
  a.epoch < b.epoch ∨ (a.epoch = b.epoch ∧ a.index ≤ b.index)

instance : DecidableRel ev_le := fun a b => by unfold ev_le; infer_instance

instance : IsTotal Event ev_le :=
  ⟨by
    intro a b
    unfold ev_le
    rcases Nat.lt_trichotomy a.epoch b.epoch with h | h | h
    · exact Or.inl (Or.inl h)
    · rcases Nat.le_total a.index b.index with hi | hi
      · exact Or.inl (Or.inr ⟨h, hi⟩)
      · exact Or.inr (Or.inr ⟨h.symm, hi⟩)
    · exact Or.inr (Or.inl h)⟩

instance : IsTrans Event ev_le :=
  ⟨by
    intro a b c hab hbc
    unfold ev_le at *
    rcases hab with h1 | ⟨h1, h1i⟩
    · rcases hbc with h2 | ⟨h2, _⟩
      · exact Or.inl (h1.trans h2)
      · exact Or.inl (h2 ▸ h1)
    · rcases hbc with h2 | ⟨h2, h2i⟩
      · exact Or.inl (h1 ▸ h2)
      · exact Or.inr ⟨h1.trans h2, h1i.trans h2i⟩⟩

/-- The session record returned by `parse_session` (parser.py:601-619).  The
aggregate `Counter` fields and the `path` echo are omitted (no claim mentions
them). -/
structure Session where
  id : Str
  cwd : Option Str
  start_ts : Option Nat
  end_ts : Option Nat
  duration : Str
  user_messages : List Str
  assistant_messages : List Str
  model : Option Str
  cli_version : Option Str
  summary : Str
  events : List Event
deriving DecidableEq, Repr

/-- `parse_session` (parser.py:318-619).  The reading loop's accumulators are
mutually independent per line, so each is rendered as its own pass over the
line list: the timestamp bounds, the last `session_meta` payload, the last
truthy `cli_version` / `model`, the user / assistant message lists, and the
emitted events (at most one per line), which receive global indices in
emission order and are then sorted by `(epoch, index)` exactly as
`sorted(events, key=lambda e: (e["epoch"], e["index"]))` (parser.py:599).
`path` stands for `os.path.basename(path)` (filesystem naming is external). -/
def parse_session (lines : List Line) (path : Str) (max_chars : Nat := 0) : Session :=
  let meta := session_meta_of lines
  let first_ts := session_first_ts lines
  let last_ts := session_last_ts lines
  let user_messages := lines.filterMap line_user_message
  { id :=
      (match jlookup meta (S "id") with
       | some v => if v.truthy then pystr v else path
       | none => path),
    cwd :=
      (match jlookup meta (S "cwd") with
       | some (JVal.jstr s) => some s
       | _ => none),
    start_ts := first_ts,
    end_ts := last_ts,
    duration := format_duration first_ts last_ts,
    user_messages := user_messages,
    assistant_messages := lines.filterMap line_assistant_message,
    model := session_model lines,
    cli_version := session_cli_version lines,
    summary := summarize_text (first_non_instruction user_messages),
    events := List.insertionSort ev_le
      (with_indices 0 (lines.filterMap (line_event max_chars))) }

/-- `e.get("details") or e.get("summary") or ""`. -/
def ev_text_or_summary (e : Event) : Str :=
  if e.details = [] then e.summary else e.details

/-- Collapse white-space, cut to `n` characters, and mark the cut
(`re.sub(r"\s+", " ", text.strip())[:n]` plus the `if len(text) == n` marker
of the digest loops). -/
def clip_mark (n : Nat) (t : Str) : Str :=
  let c := (collapse_ws t).take n
  if c.length = n then c ++ S "..." else c

/-- The numbered-prompt lines of the digest (`enumerate(..., 1)`). -/
def numbered_from : Nat → List Str → List Str
  | _, [] => []
  | i, t :: ts => (natDigs i ++ S ". \"" ++ t ++ S "\"") :: numbered_from (i + 1) ts

/-- Descending length of `details` — the key of
`sorted(thinking_events, key=lambda x: len(x.get("details") or ""),
reverse=True)`.  Python's sort is stable; the order among equal lengths is
not read by any claim. -/
def think_rel (a b : Event) : Prop := b.details.length ≤ a.details.length

instance : DecidableRel think_rel := fun a b => by unfold think_rel; infer_instance

/-- Attempt of `re.search(rf"{key}:\s*(.+?)(?:\n|$)", ..., re.IGNORECASE)` at
the head of the string: the key and colon case-insensitively, then greedy
white-space, then the minimal nonempty run of non-newline characters up to a
newline or the end — which is the remainder of the current line.  A capture
that Python's backtracking would produce out of pure white-space is stripped
to nothing and dropped by every caller, so it is modeled as no match. -/
def key_match_at (key : Str) (l : Str) : Option Str :=
  if lower_str (l.take (key.length + 1)) = key ++ [':'] then
    let cap := ((l.drop (key.length + 1)).dropWhile is_ws).takeWhile (fun c => c ≠ '\n')
    if cap = [] then none else some cap
  else none

/-- The capture at the leftmost matching position. -/
def search_key (key : Str) : Str → Option Str
  | [] => none
  | c :: rest =>
    match key_match_at key (c :: rest) with
    | some cap => some cap
    | none => search_key key rest

/-- `if x and x not in acc: acc.append(x)`. -/
def dedupe_push (acc : List Str) (x : Str) : List Str :=
  if x = [] then acc
  else if acc.contains x then acc
  else acc ++ [x]

/-- `generate_digest` (parser.py:658-783): a deterministic reduction of a
built session to markdown lines joined by newlines. -/
def generate_digest (session : Session) : Str :=
  let sid := session.id
  let short_id := if sid = [] then S "(unknown)" else sid.take 8
  let events := session.events
  let header :=
    [S "# Session Digest: " ++ short_id, [],
     S "**Project:** " ++
       (match session.cwd with
        | some c => if c = [] then S "(unknown)" else c
        | none => S "(unknown)"),
     S "**Duration:** " ++ session.duration] ++
    (match session.model with
     | some m => if m = [] then [] else [S "**Model:** " ++ m]
     | none => []) ++ [[]]
  let user_events := events.filter (fun e => e.event_type = EVENT_USER)
  let user_prompts := user_events.filterMap (fun e =>
    let text := ev_text_or_summary e
    if text ≠ [] ∧ is_instruction_text text = false then some text else none)
  let prompts_section :=
    if user_prompts = [] then []
    else
      [S "## User Prompts (chronological)", []] ++
      numbered_from 1 ((user_prompts.take 10).map (clip_mark 300)) ++
      (if user_prompts.length > 10 then
        [S "   ... and " ++ natDigs (user_prompts.length - 10) ++ S " more prompts"]
       else []) ++ [[]]
  let thinking_events := events.filter (fun e => e.event_type = EVENT_THINKING)
  let thinking_section :=
    if thinking_events = [] then []
    else
      let substantive := (List.insertionSort think_rel thinking_events).take 5
      [S "## Key Thinking/Decisions", []] ++
      substantive.filterMap (fun block =>
        let text := clip_mark 400 (ev_text_or_summary block)
        if text = [] then none else some (S "- " ++ text)) ++ [[]]
  let tool_events := events.filter (fun e => e.event_type = EVENT_TOOL_USE)
  let commands := tool_events.foldl (fun acc e =>
    match search_key (S "command") e.details with
    | some cap => dedupe_push acc ((strip_str cap).take 100)
    | none => acc) []
  let files_modified := tool_events.foldl (fun acc e =>
    let acc1 :=
      match search_key (S "file_path") e.details with
      | some cap => dedupe_push acc (strip_str cap)
      | none => acc
    match search_key (S "path") e.details with
    | some cap => dedupe_push acc1 (strip_str cap)
    | none => acc1) []
  let commands_section :=
    if commands = [] then []
    else
      [S "## Commands Run", []] ++
      (commands.take 15).map (fun c => S "- `" ++ c ++ S "`") ++ [[]]
  let files_section :=
    if files_modified = [] then []
    else
      [S "## Files Modified", []] ++
      (files_modified.take 15).map (fun f =>
        S "- " ++ (if f.length > 60 then S "..." ++ f.drop (f.length - 57) else f)) ++
      [[]]
  let error_events := events.filter (fun e =>
    e.event_type = EVENT_POST_TOOL ∧ e.error = true)
  let errors_section :=
    if error_events = [] then []
    else
      [S "## Errors Encountered", []] ++
      (error_events.take 5).map (fun err =>
        let name := if err.name = [] then S "tool" else err.name
        S "- **" ++ name ++ S "**: " ++ (collapse_ws err.summary).take 200) ++ [[]]
  let nl_quote : Str → Str := fun s => join_sep (S "\n> ") (s.splitOn '\n')
  let text_events := events.filter (fun e => e.event_type = EVENT_TEXT)
  let wilo :=
    [S "## Where It Left Off", []] ++
    (match user_prompts.getLast? with
     | some lp => [S "**Last user request:**", S "> " ++ lp.take 500, []]
     | none => []) ++
    (match text_events.getLast? with
     | some te =>
       [S "**Last assistant response:**",
        S "> " ++ nl_quote ((ev_text_or_summary te).take 500), []]
     | none => [])
  join_sep (S "\n")
    (header ++ prompts_section ++ thinking_section ++ commands_section ++
     files_section ++ errors_section ++ wilo)

/-! ### Helper lemmas -/

theorem append_ne_nil_right {l1 l2 : Str} (h : l2 ≠ []) : l1 ++ l2 ≠ [] := by
  intro hc
  rcases List.append_eq_nil.mp hc with ⟨_, h2⟩
  exact h h2

theorem append_ne_nil_left {l1 l2 : Str} (h : l1 ≠ []) : l1 ++ l2 ≠ [] := by
  intro hc
  rcases List.append_eq_nil.mp hc with ⟨h1, _⟩
  exact h h1

theorem mem_collapse_core {c : Char} :
    ∀ (b : Bool) (s : Str), c ∈ collapse_core b s → c = ' ' ∨ is_ws c = false := by
  intro b s
  induction s generalizing b with
  | nil => intro h; simp [collapse_core] at h
  | cons x xs ih =>
    intro h
    unfold collapse_core at h
    by_cases hx : is_ws x
    · rw [if_pos hx] at h
      cases b with
      | true => exact ih true (by simpa using h)
      | false =>
        simp only [Bool.false_eq_true, if_neg] at h
        rcases List.mem_cons.mp h with hc | hc
        · exact Or.inl hc
        · exact ih true hc
    · rw [if_neg hx] at h
      rcases List.mem_cons.mp h with hc | hc
      · exact Or.inr (hc ▸ (Bool.not_eq_true _).mp hx)
      · exact ih false hc

theorem collapse_ws_no_nl (s : Str) : '\n' ∉ collapse_ws s := by
  intro h
  rcases mem_collapse_core false (strip_str s) h with h' | h'
  · exact absurd h' (by decide)
  · exact absurd h' (by decide)

theorem summarize_text_ne_nil (s : Str) (n : Nat) : summarize_text s n ≠ [] := by
  unfold summarize_text
  dsimp only
  split
  · decide
  · next hne =>
    split
    · exact hne
    · exact append_ne_nil_right (by decide)

theorem summarize_text_no_nl (s : Str) (n : Nat) : '\n' ∉ summarize_text s n := by
  unfold summarize_text
  dsimp only
  split
  · decide
  · split
    · exact collapse_ws_no_nl s
    · intro h
      rcases List.mem_append.mp h with h' | h'
      · exact collapse_ws_no_nl s (List.take_subset _ _ h')
      · exact absurd h' (by decide)

theorem summarize_text_length (s : Str) (n : Nat) (h3 : 3 ≤ n) :
    (summarize_text s n).length ≤ max n 12 := by
  unfold summarize_text
  dsimp only
  split
  · exact le_max_right n 12
  · next hne =>
    split
    · next hle => exact le_trans hle (le_max_left n 12)
    · rw [List.length_append, List.length_take]
      have : (S "...").length = 3 := by decide
      rw [this]
      have h1 : min (n - 3) (collapse_ws s).length ≤ n - 3 := Nat.min_le_left _ _
      omega

theorem natDigsCore_length : ∀ (fuel n : Nat) (acc : Str),
    acc.length ≤ (natDigsCore fuel n acc).length := by
  intro fuel
  induction fuel with
  | zero => intro n acc; simp [natDigsCore]
  | succ f ih =>
    intro n acc
    unfold natDigsCore
    dsimp only
    split
    · simp
    · exact le_trans (by simp) (ih (n / 10) _)

theorem natDigs_ne_nil (n : Nat) : natDigs n ≠ [] := by
  intro h
  have h1 : 1 ≤ (natDigs n).length := by
    unfold natDigs natDigsCore
    dsimp only
    split
    · simp
    · exact le_trans (by simp) (natDigsCore_length n (n / 10) _)
  rw [h] at h1
  simp at h1

theorem take_ne_nil {l : Str} {n : Nat} (h : l ≠ []) (hn : 0 < n) : l.take n ≠ [] := by
  cases l with
  | nil => exact absurd rfl h
  | cons x xs =>
    cases n with
    | zero => exact absurd hn (by simp)
    | succ m => simp [List.take]

theorem join_sep_ne_nil {sep x : Str} {xs : List Str} (hx : x ≠ []) :
    join_sep sep (x :: xs) ≠ [] := by
  cases xs with
  | nil => simpa [join_sep] using hx
  | cons y ys =>
    unfold join_sep
    exact append_ne_nil_left (append_ne_nil_left hx)

theorem strip_str_ne_nil {s : Str} {c : Char} (hc : c ∈ s) (hw : is_ws c = false) :
    strip_str s ≠ [] := by
  intro h
  unfold strip_str at h
  rw [List.reverse_eq_nil_iff] at h
  rw [List.dropWhile_eq_nil_iff] at h
  have hcmem : c ∈ s.dropWhile is_ws := by
    have hsplit := List.takeWhile_append_dropWhile (p := is_ws) (l := s)
    rcases List.mem_append.mp (hsplit ▸ hc) with hmem | hmem
    · exact absurd (List.mem_takeWhile_imp hmem) (by simp [hw])
    · exact hmem
  exact absurd (h c (List.mem_reverse.mpr hcmem)) (by simp [hw])

theorem pystr_ne_nil_of_truthy {v : JVal} (h : v.truthy = true) : pystr v ≠ [] := by
  cases v with
  | jnull => exact absurd h (by simp [JVal.truthy])
  | jbool b => cases b <;> simp [pystr] <;> decide
  | jstr s =>
    simp [JVal.truthy, List.isEmpty_iff] at h
    simpa [pystr] using h
  | jnum n =>
    unfold pystr intStr
    split
    · simp
    · exact natDigs_ne_nil _
  | jarr xs => simp [pystr]
  | jobj fs => simp [pystr]

theorem summarize_session_meta_ne_nil (payload : List (Str × JVal)) :
    summarize_session_meta payload ≠ [] := by
  unfold summarize_session_meta
  dsimp only
  rw [List.singleton_append]
  exact join_sep_ne_nil (by decide)

theorem summarize_turn_context_ne_nil (payload : List (Str × JVal)) :
    summarize_turn_context payload ≠ [] := by
  unfold summarize_turn_context
  rw [List.singleton_append]
  exact join_sep_ne_nil (by decide)

theorem summarize_token_count_ne_nil (payload : List (Str × JVal)) :
    summarize_token_count payload ≠ [] := by
  unfold summarize_token_count
  dsimp only
  split
  · decide
  · exact strip_str_ne_nil (c := 't')
      (List.mem_append_left _ (by decide)) (by decide)

theorem summarize_tool_args_ne_nil (args : Option JVal) :
    summarize_tool_args args ≠ [] := by
  unfold summarize_tool_args maybe_parse_json
  dsimp only
  split
  · split
    · exact append_ne_nil_right (by simp)
    · exact summarize_text_ne_nil _ _
  · exact summarize_text_ne_nil _ _

theorem output_pieces_result_ne_nil (output : Str) (ec : Option Str) (fl : Str) :
    (if output_pieces ec fl = [] then summarize_text output 120
     else join_sep (S " ") (output_pieces ec fl)) ≠ [] := by
  cases ec with
  | some ds =>
    rw [if_neg (by simp [output_pieces])]
    unfold output_pieces
    rw [List.cons_append]
    exact join_sep_ne_nil (append_ne_nil_left (by decide))
  | none =>
    by_cases hfl : fl = []
    · rw [if_pos (by simp [output_pieces, hfl])]
      exact summarize_text_ne_nil _ _
    · rw [if_neg (by simp [output_pieces, hfl])]
      unfold output_pieces
      rw [List.nil_append, if_neg hfl]
      exact join_sep_ne_nil (take_ne_nil hfl (by omega))

theorem summarize_tool_output_ne_nil {output : Str} (h : output ≠ []) :
    summarize_tool_output output ≠ [] := by
  unfold summarize_tool_output
  rw [if_neg h]
  exact output_pieces_result_ne_nil output _ _

/-- The events whose summary the classifier builds with `summarize_text(_,120)`
over free text: `message` / `reasoning` response items and
`user_message` / `agent_message` / `agent_reasoning` event records (the
category pins down the real branches against the catch-all lifecycle arm,
whose category is always `other`). -/
def text_summarized (e : Event) : Prop :=
  (e.source = S "response_item" ∧ (e.kind = S "message" ∨ e.kind = S "reasoning"))
  ∨ (e.source = S "event_msg" ∧
      ((e.kind = S "user_message" ∧ e.category = CATEGORY_USER) ∨
       (e.kind = S "agent_message" ∧ e.category = CATEGORY_ASSISTANT) ∨
       (e.kind = S "agent_reasoning" ∧ e.category = CATEGORY_THINKING)))

/-- The per-event facts needed by the claims, established branch by branch
over the classifier. -/
def ev_props (e : Event) : Prop :=
  (e.ts = [] → e.epoch = 0)
  ∧ (e.summary = [] → e.event_type = EVENT_POST_TOOL)
  ∧ (text_summarized e → '\n' ∉ e.summary ∧ e.summary.length ≤ 120)

theorem mk_event_ts_zero (ts : Option Nat) (c s k r n su d et : Str) (er : Bool) :
    (mk_event ts c s k r n su d et er).ts = [] →
    (mk_event ts c s k r n su d et er).epoch = 0 := by
  cases ts with
  | none => intro _; rfl
  | some m => intro hts; exact absurd hts (natDigs_ne_nil m)

theorem summarize_text_120_le (s : Str) : (summarize_text s 120).length ≤ 120 := by
  have h := summarize_text_length s 120 (by omega)
  rwa [(by decide : max 120 12 = 120)] at h

theorem mk_event_source (ts : Option Nat) (c s k r n su d et : Str) (er : Bool) :
    (mk_event ts c s k r n su d et er).source = s := rfl

theorem mk_event_kind (ts : Option Nat) (c s k r n su d et : Str) (er : Bool) :
    (mk_event ts c s k r n su d et er).kind = k := rfl

theorem mk_event_category (ts : Option Nat) (c s k r n su d et : Str) (er : Bool) :
    (mk_event ts c s k r n su d et er).category = c := rfl

theorem mk_event_summary (ts : Option Nat) (c s k r n su d et : Str) (er : Bool) :
    (mk_event ts c s k r n su d et er).summary = su := rfl

theorem response_item_event_props (mc : Nat) (ts : Option Nat)
    (payload : List (Str × JVal)) (e : Event)
    (h : response_item_event mc ts payload = some e) : ev_props e := by
  unfold response_item_event at h
  split at h
  · next pt =>
    dsimp only at h
    split at h
    · -- message: three role variants
      split at h
      · obtain rfl := Option.some.inj h
        refine ⟨mk_event_ts_zero _ _ _ _ _ _ _ _ _ _, ?_, ?_⟩
        · intro hsum; exact absurd hsum (summarize_text_ne_nil _ _)
        · intro _; exact ⟨summarize_text_no_nl _ _, summarize_text_120_le _⟩
      · split at h
        · obtain rfl := Option.some.inj h
          refine ⟨mk_event_ts_zero _ _ _ _ _ _ _ _ _ _, ?_, ?_⟩
          · intro hsum; exact absurd hsum (summarize_text_ne_nil _ _)
          · intro _; exact ⟨summarize_text_no_nl _ _, summarize_text_120_le _⟩
        · obtain rfl := Option.some.inj h
          refine ⟨mk_event_ts_zero _ _ _ _ _ _ _ _ _ _, ?_, ?_⟩
          · intro hsum; exact absurd hsum (summarize_text_ne_nil _ _)
          · intro _; exact ⟨summarize_text_no_nl _ _, summarize_text_120_le _⟩
    · split at h
      · -- function_call
        obtain rfl := Option.some.inj h
        refine ⟨mk_event_ts_zero _ _ _ _ _ _ _ _ _ _, ?_, ?_⟩
        · intro hsum
          revert hsum
          dsimp only [mk_event]
          split
          · next hargs => exact fun _ => absurd hargs (summarize_tool_args_ne_nil _)
          · intro hsum
            rcases List.append_eq_nil.mp hsum with ⟨h1, h2⟩
            exact absurd h2 (summarize_tool_args_ne_nil _)
        · intro htext
          rcases htext with ⟨hs, hk⟩ | ⟨hs, _⟩
          · rw [mk_event_kind] at hk
            rcases hk with hk | hk <;> exact absurd hk (by decide)
          · rw [mk_event_source] at hs
            exact absurd hs (by decide)
      · split at h
        · -- function_call_output
          obtain rfl := Option.some.inj h
          refine ⟨mk_event_ts_zero _ _ _ _ _ _ _ _ _ _, ?_, ?_⟩
          · intro _; rfl
          · intro htext
            rcases htext with ⟨hs, hk⟩ | ⟨hs, _⟩
            · rw [mk_event_kind] at hk
              rcases hk with hk | hk <;> exact absurd hk (by decide)
            · rw [mk_event_source] at hs
              exact absurd hs (by decide)
        · split at h
          · -- reasoning
            obtain rfl := Option.some.inj h
            refine ⟨mk_event_ts_zero _ _ _ _ _ _ _ _ _ _, ?_, ?_⟩
            · intro hsum; exact absurd hsum (summarize_text_ne_nil _ _)
            · intro _; exact ⟨summarize_text_no_nl _ _, summarize_text_120_le _⟩
          · split at h
            · -- ghost_snapshot
              obtain rfl := Option.some.inj h
              refine ⟨mk_event_ts_zero _ _ _ _ _ _ _ _ _ _, ?_, ?_⟩
              · intro hsum
                rw [mk_event_summary] at hsum
                exact absurd hsum (by decide)
              · intro htext
                rcases htext with ⟨hs, hk⟩ | ⟨hs, _⟩
                · rw [mk_event_kind] at hk
                  rcases hk with hk | hk <;> exact absurd hk (by decide)
                · rw [mk_event_source] at hs
                  exact absurd hs (by decide)
            · exact absurd h (by simp)
  · exact absurd h (by simp)

theorem event_msg_event_props (mc : Nat) (ts : Option Nat)
    (payload : List (Str × JVal)) (e : Event)
    (h : event_msg_event mc ts payload = some e) : ev_props e := by
  unfold event_msg_event at h
  split at h
  · next pt =>
    dsimp only at h
    split at h
    · -- user_message
      obtain rfl := Option.some.inj h
      refine ⟨mk_event_ts_zero _ _ _ _ _ _ _ _ _ _, ?_, ?_⟩
      · intro hsum; exact absurd hsum (summarize_text_ne_nil _ _)
      · intro _; exact ⟨summarize_text_no_nl _ _, summarize_text_120_le _⟩
    · split at h
      · -- agent_message
        obtain rfl := Option.some.inj h
        refine ⟨mk_event_ts_zero _ _ _ _ _ _ _ _ _ _, ?_, ?_⟩
        · intro hsum; exact absurd hsum (summarize_text_ne_nil _ _)
        · intro _; exact ⟨summarize_text_no_nl _ _, summarize_text_120_le _⟩
      · split at h
        · -- agent_reasoning
          obtain rfl := Option.some.inj h
          refine ⟨mk_event_ts_zero _ _ _ _ _ _ _ _ _ _, ?_, ?_⟩
          · intro hsum; exact absurd hsum (summarize_text_ne_nil _ _)
          · intro _; exact ⟨summarize_text_no_nl _ _, summarize_text_120_le _⟩
        · split at h
          · -- token_count
            obtain rfl := Option.some.inj h
            refine ⟨mk_event_ts_zero _ _ _ _ _ _ _ _ _ _, ?_, ?_⟩
            · intro hsum; exact absurd hsum (summarize_token_count_ne_nil _)
            · intro htext
              rcases htext with ⟨hs, _⟩ | ⟨_, hk⟩
              · rw [mk_event_source] at hs
                exact absurd hs (by decide)
              · rcases hk with ⟨hk1, _⟩ | ⟨hk1, _⟩ | ⟨hk1, _⟩ <;>
                  (rw [mk_event_kind] at hk1; exact absurd hk1 (by decide))
          · -- catch-all with a string type
            obtain rfl := Option.some.inj h
            refine ⟨mk_event_ts_zero _ _ _ _ _ _ _ _ _ _, ?_, ?_⟩
            · intro hsum
              rw [mk_event_summary] at hsum
              revert hsum
              split
              · intro hsum; exact absurd hsum (by decide)
              · next hpt => exact fun hsum => absurd hsum hpt
            · intro htext
              rcases htext with ⟨hs, _⟩ | ⟨_, hk⟩
              · rw [mk_event_source] at hs
                exact absurd hs (by decide)
              · rcases hk with ⟨_, hc⟩ | ⟨_, hc⟩ | ⟨_, hc⟩ <;>
                  (rw [mk_event_category] at hc; exact absurd hc (by decide))
  · next v hnotstr =>
    try dsimp only at h
    obtain rfl := Option.some.inj h
    refine ⟨mk_event_ts_zero _ _ _ _ _ _ _ _ _ _, ?_, ?_⟩
    · intro hsum
      rw [mk_event_summary] at hsum
      revert hsum
      split
      · next hv => exact fun hsum => absurd hsum (pystr_ne_nil_of_truthy hv)
      · intro hsum; exact absurd hsum (by decide)
    · intro htext
      rcases htext with ⟨hs, _⟩ | ⟨_, hk⟩
      · rw [mk_event_source] at hs
        exact absurd hs (by decide)
      · rcases hk with ⟨_, hc⟩ | ⟨_, hc⟩ | ⟨_, hc⟩ <;>
          (rw [mk_event_category] at hc; exact absurd hc (by decide))
  · try dsimp only at h
    obtain rfl := Option.some.inj h
    refine ⟨mk_event_ts_zero _ _ _ _ _ _ _ _ _ _, ?_, ?_⟩
    · intro hsum
      rw [mk_event_summary] at hsum
      exact absurd hsum (by decide)
    · intro htext
      rcases htext with ⟨hs, _⟩ | ⟨_, hk⟩
      · rw [mk_event_source] at hs
        exact absurd hs (by decide)
      · rcases hk with ⟨_, hc⟩ | ⟨_, hc⟩ | ⟨_, hc⟩ <;>
          (rw [mk_event_category] at hc; exact absurd hc (by decide))

theorem line_event_props (mc : Nat) (l : Line) (e : Event)
    (h : line_event mc l = some e) : ev_props e := by
  cases l with
  | blank => simp [line_event, line_obj] at h
  | malformed => simp [line_event, line_obj] at h
  | valid obj =>
    unfold line_event line_obj at h
    dsimp only at h
    split at h
    · next t =>
      split at h
      · -- session_meta
        obtain rfl := Option.some.inj h
        refine ⟨mk_event_ts_zero _ _ _ _ _ _ _ _ _ _, ?_, ?_⟩
        · intro hsum; exact absurd hsum (summarize_session_meta_ne_nil _)
        · intro htext
          rcases htext with ⟨hs, _⟩ | ⟨hs, _⟩ <;>
            (rw [mk_event_source] at hs; exact absurd hs (by decide))
      · split at h
        · -- turn_context
          obtain rfl := Option.some.inj h
          refine ⟨mk_event_ts_zero _ _ _ _ _ _ _ _ _ _, ?_, ?_⟩
          · intro hsum; exact absurd hsum (summarize_turn_context_ne_nil _)
          · intro htext
            rcases htext with ⟨hs, _⟩ | ⟨hs, _⟩ <;>
              (rw [mk_event_source] at hs; exact absurd hs (by decide))
        · split at h
          · exact response_item_event_props _ _ _ _ h
          · split at h
            · exact event_msg_event_props _ _ _ _ h
            · exact absurd h (by simp)
    · exact absurd h (by simp)

theorem mem_with_indices {e : Event} :
    ∀ (i : Nat) (l : List Event), e ∈ with_indices i l →
    ∃ e0 ∈ l, ∃ j, e = { e0 with index := j } := by
  intro i l
  induction l generalizing i with
  | nil => intro h; simp [with_indices] at h
  | cons x xs ih =>
    intro h
    rcases List.mem_cons.mp h with hc | hc
    · exact ⟨x, List.mem_cons_self x xs, i, hc⟩
    · rcases ih (i + 1) hc with ⟨e0, hm, j, hj⟩
      exact ⟨e0, List.mem_cons_of_mem x hm, j, hj⟩

theorem ev_props_index {e : Event} {j : Nat} (h : ev_props e) :
    ev_props { e with index := j } := h

theorem parse_session_events_props {lines : List Line} {path : Str} {mc : Nat}
    {e : Event} (he : e ∈ (parse_session lines path mc).events) : ev_props e := by
  unfold parse_session at he
  dsimp only at he
  rw [(List.perm_insertionSort ev_le _).mem_iff] at he
  rcases mem_with_indices 0 _ he with ⟨e0, hm, j, rfl⟩
  rcases List.mem_filterMap.mp hm with ⟨l, _, hle⟩
  exact ev_props_index (line_event_props mc l e0 hle)

theorem parse_session_events_chain (lines : List Line) (path : Str) (mc : Nat) :
    List.Chain' (fun a b => a.epoch ≤ b.epoch) (parse_session lines path mc).events := by
  have hs : List.Sorted ev_le (parse_session lines path mc).events :=
    List.sorted_insertionSort ev_le _
  refine List.Pairwise.chain' (List.Pairwise.imp ?_ hs)
  intro a b hab
  rcases hab with h | ⟨h, _⟩
  · exact Nat.le_of_lt h
  · exact Nat.le_of_eq h

/-- Whether a line contributes an event satisfying `p`. -/
def line_event_is (mc : Nat) (p : Event → Bool) (l : Line) : Bool :=
  match line_event mc l with
  | some e => p e
  | none => false

theorem countP_with_indices (p : Event → Bool)
    (hp : ∀ (e : Event) (j : Nat), p { e with index := j } = p e) :
    ∀ (i : Nat) (l : List Event), (with_indices i l).countP p = l.countP p := by
  intro i l
  induction l generalizing i with
  | nil => rfl
  | cons x xs ih =>
    simp only [with_indices, List.countP_cons, ih (i + 1), hp]

theorem countP_filterMap_line (p : Event → Bool) (mc : Nat) :
    ∀ lines : List Line,
    ((lines.filterMap (line_event mc)).countP p) = lines.countP (line_event_is mc p) := by
  intro lines
  induction lines with
  | nil => rfl
  | cons l ls ih =>
    cases h : line_event mc l with
    | none =>
      simp [List.filterMap_cons, h, List.countP_cons, ih, line_event_is]
    | some e =>
      simp [List.filterMap_cons, h, List.countP_cons, ih, line_event_is]

theorem parse_session_countP (p : Event → Bool)
    (hp : ∀ (e : Event) (j : Nat), p { e with index := j } = p e)
    (lines : List Line) (path : Str) (mc : Nat) :
    ((parse_session lines path mc).events.countP p) = lines.countP (line_event_is mc p) := by
  unfold parse_session
  dsimp only
  rw [(List.perm_insertionSort ev_le _).countP_eq]
  rw [countP_with_indices p hp]
  exact countP_filterMap_line p mc lines

theorem parse_session_events_length (lines : List Line) (path : Str) (mc : Nat) :
    (parse_session lines path mc).events.length
      = lines.countP (line_event_is mc (fun _ => true)) := by
  have h := parse_session_countP (fun _ => true) (fun _ _ => rfl) lines path mc
  rwa [List.countP_true] at h

theorem foldl_min_step_spec :
    ∀ (ts : List Nat) (acc : Option Nat) (a : Nat),
    ts.foldl min_step acc = some a →
    ((a ∈ ts ∨ acc = some a) ∧ (∀ t ∈ ts, a ≤ t) ∧ (∀ x, acc = some x → a ≤ x)) := by
  intro ts
  induction ts with
  | nil =>
    intro acc a h
    rw [List.foldl_nil] at h
    refine ⟨Or.inr h, by simp, ?_⟩
    intro x hx
    rw [h] at hx
    exact le_of_eq (Option.some.inj hx)
  | cons t rest ih =>
    intro acc a h
    rw [List.foldl_cons] at h
    rcases ih (min_step acc t) a h with ⟨hmem, hall, hacc⟩
    have hle_t : a ≤ t := by
      cases acc with
      | none => exact hacc t rfl
      | some b =>
        dsimp only [min_step] at hacc
        by_cases hb : t < b
        · rw [if_pos hb] at hacc
          exact hacc t rfl
        · rw [if_neg hb] at hacc
          exact le_trans (hacc b rfl) (Nat.le_of_not_lt hb)
    refine ⟨?_, ?_, ?_⟩
    · rcases hmem with hm | hm
      · exact Or.inl (List.mem_cons_of_mem t hm)
      · cases acc with
        | none =>
          dsimp only [min_step] at hm
          exact Or.inl (((Option.some.inj hm) ▸ List.mem_cons_self t rest))
        | some b =>
          dsimp only [min_step] at hm
          by_cases hb : t < b
          · rw [if_pos hb] at hm
            exact Or.inl ((Option.some.inj hm) ▸ List.mem_cons_self t rest)
          · rw [if_neg hb] at hm
            exact Or.inr hm
    · intro u hu
      rcases List.mem_cons.mp hu with rfl | hu
      · exact hle_t
      · exact hall u hu
    · intro x hx
      cases acc with
      | none => exact absurd hx (by simp)
      | some b =>
        obtain rfl := Option.some.inj hx
        dsimp only [min_step] at hacc
        by_cases hb : t < b
        · rw [if_pos hb] at hacc
          exact le_trans (hacc t rfl) (Nat.le_of_lt hb)
        · rw [if_neg hb] at hacc
          exact hacc b rfl

theorem foldl_max_step_spec :
    ∀ (ts : List Nat) (acc : Option Nat) (b : Nat),
    ts.foldl max_step acc = some b →
    ((b ∈ ts ∨ acc = some b) ∧ (∀ t ∈ ts, t ≤ b) ∧ (∀ x, acc = some x → x ≤ b)) := by
  intro ts
  induction ts with
  | nil =>
    intro acc b h
    rw [List.foldl_nil] at h
    refine ⟨Or.inr h, by simp, ?_⟩
    intro x hx
    rw [h] at hx
    exact le_of_eq (Option.some.inj hx).symm
  | cons t rest ih =>
    intro acc b h
    rw [List.foldl_cons] at h
    rcases ih (max_step acc t) b h with ⟨hmem, hall, hacc⟩
    have hle_t : t ≤ b := by
      cases acc with
      | none => exact hacc t rfl
      | some c =>
        dsimp only [max_step] at hacc
        by_cases hc : t > c
        · rw [if_pos hc] at hacc
          exact hacc t rfl
        · rw [if_neg hc] at hacc
          exact le_trans (Nat.le_of_not_lt hc) (hacc c rfl)
    refine ⟨?_, ?_, ?_⟩
    · rcases hmem with hm | hm
      · exact Or.inl (List.mem_cons_of_mem t hm)
      · cases acc with
        | none =>
          dsimp only [max_step] at hm
          exact Or.inl ((Option.some.inj hm) ▸ List.mem_cons_self t rest)
        | some c =>
          dsimp only [max_step] at hm
          by_cases hc : t > c
          · rw [if_pos hc] at hm
            exact Or.inl ((Option.some.inj hm) ▸ List.mem_cons_self t rest)
          · rw [if_neg hc] at hm
            exact Or.inr hm
    · intro u hu
      rcases List.mem_cons.mp hu with rfl | hu
      · exact hle_t
      · exact hall u hu
    · intro x hx
      cases acc with
      | none => exact absurd hx (by simp)
      | some c =>
        obtain rfl := Option.some.inj hx
        dsimp only [max_step] at hacc
        by_cases hc : t > c
        · rw [if_pos hc] at hacc
          exact le_trans (Nat.le_of_lt hc) (hacc t rfl)
        · rw [if_neg hc] at hacc
          exact hacc c rfl

theorem foldl_min_step_none :
    ∀ (ts : List Nat) (acc : Option Nat),
    ts.foldl min_step acc = none → ts = [] ∧ acc = none := by
  intro ts
  induction ts with
  | nil => intro acc h; rw [List.foldl_nil] at h; exact ⟨rfl, h⟩
  | cons t rest ih =>
    intro acc h
    rw [List.foldl_cons] at h
    rcases ih (min_step acc t) h with ⟨_, hstep⟩
    cases acc <;> dsimp only [min_step] at hstep
    · exact absurd hstep (by simp)
    · next b =>
      by_cases hb : t < b
      · rw [if_pos hb] at hstep; exact absurd hstep (by simp)
      · rw [if_neg hb] at hstep; exact absurd hstep (by simp)

theorem foldl_max_step_none :
    ∀ (ts : List Nat) (acc : Option Nat),
    ts.foldl max_step acc = none → ts = [] ∧ acc = none := by
  intro ts
  induction ts with
  | nil => intro acc h; rw [List.foldl_nil] at h; exact ⟨rfl, h⟩
  | cons t rest ih =>
    intro acc h
    rw [List.foldl_cons] at h
    rcases ih (max_step acc t) h with ⟨_, hstep⟩
    cases acc <;> dsimp only [max_step] at hstep
    · exact absurd hstep (by simp)
    · next b =>
      by_cases hb : t > b
      · rw [if_pos hb] at hstep; exact absurd hstep (by simp)
      · rw [if_neg hb] at hstep; exact absurd hstep (by simp)

theorem session_first_ts_eq_foldl :
    ∀ (lines : List Line) (acc : Option Nat),
    lines.foldl (fun acc l =>
      match line_ts l with
      | none => acc
      | some t => min_step acc t) acc
      = (lines.filterMap line_ts).foldl min_step acc := by
  intro lines
  induction lines with
  | nil => intro acc; rfl
  | cons l ls ih =>
    intro acc
    cases h : line_ts l with
    | none => simp [List.foldl_cons, List.filterMap_cons, h, ih]
    | some t => simp [List.foldl_cons, List.filterMap_cons, h, ih]

theorem session_last_ts_eq_foldl :
    ∀ (lines : List Line) (acc : Option Nat),
    lines.foldl (fun acc l =>
      match line_ts l with
      | none => acc
      | some t => max_step acc t) acc
      = (lines.filterMap line_ts).foldl max_step acc := by
  intro lines
  induction lines with
  | nil => intro acc; rfl
  | cons l ls ih =>
    intro acc
    cases h : line_ts l with
    | none => simp [List.foldl_cons, List.filterMap_cons, h, ih]
    | some t => simp [List.foldl_cons, List.filterMap_cons, h, ih]

/-- Lines that survive the strip-and-decode step. -/
def line_valid : Line → Bool
  | Line.valid _ => true
  | _ => false

/-- The decoded records processed by the reading loop: blank and malformed
lines contribute nothing. -/
def decoded_objs (lines : List Line) : List JVal := lines.filterMap line_obj

/-- The warnings emitted by the reading loop of `parse_session`
(parser.py:362-370).  The source's handler for a line that fails JSON
decoding is a bare `continue` — no warning is recorded, printed or counted —
and a blank line is skipped the same way, so every branch emits nothing. -/
def decode_warnings : List Line → List Str
  | [] => []
  | Line.blank :: rest => decode_warnings rest
  | Line.malformed :: rest => decode_warnings rest
  | Line.valid _ :: rest => decode_warnings rest

theorem decode_warnings_nil : ∀ lines : List Line, decode_warnings lines = [] := by
  intro lines
  induction lines with
  | nil => rfl
  | cons l ls ih => cases l <;> simpa [decode_warnings] using ih

theorem filterMap_invalid_skip {β : Type} (f : Line → Option β)
    (hf : ∀ l, line_valid l = false → f l = none) :
    ∀ lines : List Line, (lines.filter line_valid).filterMap f = lines.filterMap f := by
  intro lines
  induction lines with
  | nil => rfl
  | cons l ls ih =>
    cases hv : line_valid l with
    | true => simp [List.filter_cons, hv, List.filterMap_cons, ih]
    | false => simp [List.filter_cons, hv, List.filterMap_cons, hf l hv, ih]

theorem foldl_invalid_skip {β : Type} (g : β → Line → β)
    (hg : ∀ acc l, line_valid l = false → g acc l = acc) :
    ∀ (lines : List Line) (acc : β),
    (lines.filter line_valid).foldl g acc = lines.foldl g acc := by
  intro lines
  induction lines with
  | nil => intro acc; rfl
  | cons l ls ih =>
    intro acc
    cases hv : line_valid l with
    | true => simp [List.filter_cons, hv, List.foldl_cons, ih]
    | false => simp [List.filter_cons, hv, List.foldl_cons, hg acc l hv, ih]

theorem line_event_invalid (mc : Nat) :
    ∀ l, line_valid l = false → line_event mc l = none := by
  intro l hl
  cases l with
  | blank => rfl
  | malformed => rfl
  | valid obj => simp [line_valid] at hl

theorem line_ts_invalid : ∀ l, line_valid l = false → line_ts l = none := by
  intro l hl
  cases l with
  | blank => rfl
  | malformed => rfl
  | valid obj => simp [line_valid] at hl

theorem line_session_meta_invalid :
    ∀ l, line_valid l = false → line_session_meta l = none := by
  intro l hl
  cases l with
  | blank => rfl
  | malformed => rfl
  | valid obj => simp [line_valid] at hl

theorem line_turn_context_invalid :
    ∀ l, line_valid l = false → line_turn_context l = none := by
  intro l hl
  cases l with
  | blank => rfl
  | malformed => rfl
  | valid obj => simp [line_valid] at hl

theorem line_user_message_invalid :
    ∀ l, line_valid l = false → line_user_message l = none := by
  intro l hl
  cases l with
  | blank => rfl
  | malformed => rfl
  | valid obj => simp [line_valid] at hl

theorem line_assistant_message_invalid :
    ∀ l, line_valid l = false → line_assistant_message l = none := by
  intro l hl
  cases l with
  | blank => rfl
  | malformed => rfl
  | valid obj => simp [line_valid] at hl

theorem parse_session_filter_valid (lines : List Line) (path : Str) (mc : Nat) :
    parse_session (lines.filter line_valid) path mc = parse_session lines path mc := by
  have hmeta : session_meta_of (lines.filter line_valid) = session_meta_of lines := by
    unfold session_meta_of
    rw [filterMap_invalid_skip _ line_session_meta_invalid]
  have hfirst : session_first_ts (lines.filter line_valid) = session_first_ts lines := by
    unfold session_first_ts
    refine foldl_invalid_skip _ ?_ lines none
    intro acc l hl
    rw [line_ts_invalid l hl]
  have hlast : session_last_ts (lines.filter line_valid) = session_last_ts lines := by
    unfold session_last_ts
    refine foldl_invalid_skip _ ?_ lines none
    intro acc l hl
    rw [line_ts_invalid l hl]
  have husr : (lines.filter line_valid).filterMap line_user_message
      = lines.filterMap line_user_message :=
    filterMap_invalid_skip _ line_user_message_invalid lines
  have hast : (lines.filter line_valid).filterMap line_assistant_message
      = lines.filterMap line_assistant_message :=
    filterMap_invalid_skip _ line_assistant_message_invalid lines
  have hmodel : session_model (lines.filter line_valid) = session_model lines := by
    unfold session_model
    rw [filterMap_invalid_skip]
    intro l hl
    rw [line_turn_context_invalid l hl]
    rfl
  have hcli : session_cli_version (lines.filter line_valid) = session_cli_version lines := by
    unfold session_cli_version
    rw [filterMap_invalid_skip]
    intro l hl
    rw [line_session_meta_invalid l hl]
    rfl
  have hev : (lines.filter line_valid).filterMap (line_event mc)
      = lines.filterMap (line_event mc) :=
    filterMap_invalid_skip _ (line_event_invalid mc) lines
  unfold parse_session
  dsimp only
  rw [hmeta, hfirst, hlast, husr, hast, hmodel, hcli, hev]

theorem search_exit_eq_head : ∀ s : Str, search_exit s = (all_exit_matches s).head? := by
  intro s
  induction s with
  | nil => rfl
  | cons c rest ih =>
    unfold search_exit all_exit_matches
    cases h : exit_match_at (c :: rest) with
    | some ds => simp [h]
    | none => simp [h, ih]

/-- Specification-side reading of "the output contains an exit-code indicator
with N different from 0": some position of the output matches the indicator
pattern with a digit group of nonzero value. -/
def has_nonzero_exit (s : Str) : Bool :=
  (all_exit_matches s).any (fun ds => decide (digitsVal ds ≠ 0))

/-- A structured-log `user_message` record, as one transcript line. -/
def user_msg_line (msg ts : Str) : Line :=
  Line.valid (JVal.jobj [(S "timestamp", JVal.jstr ts),
    (S "type", JVal.jstr (S "event_msg")),
    (S "payload", JVal.jobj [(S "type", JVal.jstr (S "user_message")),
      (S "message", JVal.jstr msg)])])

/-- A `function_call` (tool invocation) record, as one transcript line. -/
def function_call_line (nm : Str) (args : JVal) (cid ts : Str) : Line :=
  Line.valid (JVal.jobj [(S "timestamp", JVal.jstr ts),
    (S "type", JVal.jstr (S "response_item")),
    (S "payload", JVal.jobj [(S "type", JVal.jstr (S "function_call")),
      (S "name", JVal.jstr nm), (S "arguments", args),
      (S "call_id", JVal.jstr cid)])])

/-- A `function_call_output` (tool result) record, as one transcript line. -/
def function_call_output_line (cid output ts : Str) : Line :=
  Line.valid (JVal.jobj [(S "timestamp", JVal.jstr ts),
    (S "type", JVal.jstr (S "response_item")),
    (S "payload", JVal.jobj [(S "type", JVal.jstr (S "function_call_output")),
      (S "call_id", JVal.jstr cid), (S "output", JVal.jstr output)])])

/-- A decoded record whose `type` matches no classifier branch: it produces
no timeline event but its timestamp still feeds the session bounds. -/
def bogus_type_line (ts : Str) : Line :=
  Line.valid (JVal.jobj [(S "timestamp", JVal.jstr ts),
    (S "type", JVal.jstr (S "unrecognized"))])

/-! ### Claims -/

/-- C6: detail truncation is total and deterministic: a cap of 0 returns the
text unchanged; text not exceeding a positive cap is returned unchanged; text
exceeding a positive cap becomes its first `max_chars` characters followed by
the explicit marker naming the number of truncated characters.  Totality (it
never raises) is the existence of the Lean function itself. -/
theorem C6_truncation (text : Str) (mc : Nat) :
    (mc = 0 → truncate_text text mc = text)
    ∧ (text.length ≤ mc → truncate_text text mc = text)
    ∧ (0 < mc → mc < text.length →
        truncate_text text mc
          = text.take mc ++ S "\n...[truncated " ++ natDigs (text.length - mc)
              ++ S " chars]") := by
  unfold truncate_text
  by_cases h0 : text = []
  · subst h0
    refine ⟨fun _ => by simp, fun _ => by simp, fun h1 h2 => ?_⟩
    simp at h2
  · rw [if_neg h0]
    by_cases hc : mc ≠ 0 ∧ text.length > mc
    · rw [if_pos hc]
      exact ⟨fun h => absurd h hc.1, fun h => absurd hc.2 (by omega),
             fun _ _ => rfl⟩
    · rw [if_neg hc]
      refine ⟨fun _ => rfl, fun _ => rfl, fun h1 h2 => ?_⟩
      exact absurd ⟨by omega, h2⟩ hc

/-- C6 witness: the truncation contract evaluated at a cap of 0 and at a
6-character text with cap 3. -/
theorem C6_witness :
    truncate_text (S "abcdef") 0 = S "abcdef"
    ∧ truncate_text (S "abcdef") 3
        = (S "abcdef").take 3 ++ S "\n...[truncated "
            ++ natDigs ((S "abcdef").length - 3) ++ S " chars]" :=
  ⟨(C6_truncation (S "abcdef") 0).1 rfl,
   (C6_truncation (S "abcdef") 3).2.2 (by decide) (by decide)⟩

/-- C7 counterexample: an output containing an exit-code indicator with N = 4
(after an earlier indicator with N = 0) is *not* flagged as an error, because
the source consults only the first indicator — refuting "the flag is true if
and only if the output contains an exit-code indicator with N different
from 0". -/
theorem C7_counterexample :
    tool_output_error (S "Exit code: 0 Exit code: 4") = false
    ∧ has_nonzero_exit (S "Exit code: 0 Exit code: 4") = true := by decide

/-- C7 (amended): the error flag is true iff the *first* exit-code indicator
in the output has a digit group different from the literal "0" (in
particular, an empty output or an output with no indicator yields false). -/
theorem C7_first_indicator (output : Str) :
    (tool_output_error output = true ↔
      ∃ ds, (all_exit_matches output).head? = some ds ∧ ds ≠ S "0")
    ∧ (all_exit_matches output = [] → tool_output_error output = false) := by
  constructor
  · unfold tool_output_error
    by_cases h0 : output = []
    · subst h0
      simp [all_exit_matches]
    · rw [if_neg h0, search_exit_eq_head]
      cases h : (all_exit_matches output).head? with
      | none => simp
      | some ds =>
        by_cases hds : ds = S "0"
        · subst hds
          simp
        · simp [hds]
  · intro h
    unfold tool_output_error
    rw [search_exit_eq_head, h]
    split <;> rfl

/-- C7 witness: a single nonzero indicator is flagged. -/
theorem C7_witness : tool_output_error (S "Exit code: 2") = true :=
  (C7_first_indicator (S "Exit code: 2")).1.mpr ⟨S "2", by decide, by decide⟩

/-- C2 counterexample: an agent whose very first (and only) user message is
exactly "warmup" still contributes its event to the timeline — the claimed
discarding does not happen (and no discarded-agent counter exists in the
source at all). -/
theorem C2_counterexample :
    (parse_session [user_msg_line (S "warmup") (S "1")] (S "p") 0).events.length = 1
    ∧ (parse_session [user_msg_line (S "warmup") (S "1")] (S "p") 0).events.length ≠ 0 := by
  decide

/-- C2 (amended): no warmup filtering exists: replacing any user message by
the probe phrase "warmup" never changes the number of timeline events, and a
session whose only record is a "warmup" user message still yields exactly one
event. -/
theorem C2_no_warmup_filter (msg ts path : Str) (mc : Nat) (front back : List Line) :
    (parse_session (front ++ user_msg_line msg ts :: back) path mc).events.length
      = (parse_session (front ++ user_msg_line (S "warmup") ts :: back) path mc).events.length
    ∧ (parse_session [user_msg_line msg ts] path mc).events.length = 1 := by
  constructor
  · rw [parse_session_events_length, parse_session_events_length]
    have h1 : line_event_is mc (fun _ => true) (user_msg_line msg ts) = true := rfl
    have h2 : line_event_is mc (fun _ => true) (user_msg_line (S "warmup") ts) = true := rfl
    simp [List.countP_append, List.countP_cons, h1, h2]
  · rw [parse_session_events_length]
    rfl

/-- C1 counterexample: a `tool_use` with call identifier `c1` and a matching
`tool_result` for `c1` in the same record set: the result is *not* folded
into its parent — it stays on the directly-displayed stream as its own
`post_tool_use` event (and the event shape carries no attached result at
all). -/
theorem C1_counterexample :
    ((parse_session [function_call_line (S "shell")
        (JVal.jobj [(S "command", JVal.jstr (S "ls"))]) (S "c1") (S "1"),
      function_call_output_line (S "c1") (S "done") (S "2")] (S "p") 0).events.map
        (fun e => (e.event_type, e.name)))
      = [(EVENT_TOOL_USE, S "shell"), (EVENT_POST_TOOL, S "c1")] := by decide

/-- C1 (amended): no correlation by call identifier occurs: every
`function_call` record yields its own `tool_use` event and every
`function_call_output` record yields its own standalone `post_tool_use`
event, matched or not (in particular a matched invocation/result pair yields
two timeline events); a `tool_use` without a result is likewise retained. -/
theorem C1_no_result_folding (lines : List Line) (path : Str) (mc : Nat)
    (nm : Str) (args : JVal) (cid output t1 t2 : Str) :
    ((parse_session lines path mc).events.countP
        (fun e => decide (e.event_type = EVENT_POST_TOOL))
      = lines.countP (line_event_is mc (fun e => decide (e.event_type = EVENT_POST_TOOL))))
    ∧ ((parse_session lines path mc).events.countP
        (fun e => decide (e.event_type = EVENT_TOOL_USE))
      = lines.countP (line_event_is mc (fun e => decide (e.event_type = EVENT_TOOL_USE))))
    ∧ (parse_session [function_call_line nm args cid t1,
        function_call_output_line cid output t2] path mc).events.length = 2
    ∧ (parse_session [function_call_line nm args cid t1,
        function_call_output_line cid output t2] path mc).events.countP
          (fun e => decide (e.event_type = EVENT_TOOL_USE)) = 1
    ∧ (parse_session [function_call_line nm args cid t1,
        function_call_output_line cid output t2] path mc).events.countP
          (fun e => decide (e.event_type = EVENT_POST_TOOL)) = 1 := by
  refine ⟨parse_session_countP (fun e => decide (e.event_type = EVENT_POST_TOOL))
            (fun _ _ => rfl) lines path mc,
          parse_session_countP (fun e => decide (e.event_type = EVENT_TOOL_USE))
            (fun _ _ => rfl) lines path mc, ?_, ?_, ?_⟩
  · rw [parse_session_events_length]
    rfl
  · rw [parse_session_countP (fun e => decide (e.event_type = EVENT_TOOL_USE))
        (fun _ _ => rfl)]
    rfl
  · rw [parse_session_countP (fun e => decide (e.event_type = EVENT_POST_TOOL))
        (fun _ _ => rfl)]
    rfl

/-- C3: the built timeline is ordered by the `(epoch, index)` sort key, so
adjacent pairs are non-decreasing in epoch (in particular wherever both
timestamps are present); an event lacking a timestamp carries the earliest
possible sentinel epoch 0; and parsing is a function of its input — identical
inputs give identical output, with ties broken by the deterministic emission
index. -/
theorem C3_timeline_order (lines : List Line) (path : Str) (mc : Nat) :
    List.Chain' (fun a b => a.epoch ≤ b.epoch) (parse_session lines path mc).events
    ∧ (∀ e ∈ (parse_session lines path mc).events, e.ts = [] → e.epoch = 0)
    ∧ (∀ lines2, lines2 = lines →
        parse_session lines2 path mc = parse_session lines path mc) := by
  refine ⟨parse_session_events_chain lines path mc, ?_, ?_⟩
  · intro e he
    exact (parse_session_events_props he).1
  · intro lines2 h
    rw [h]

/-- C3 witness: the ordering and determinism evaluated on a concrete
two-record session whose records arrive out of timestamp order. -/
theorem C3_witness :
    List.Chain' (fun a b => a.epoch ≤ b.epoch)
      (parse_session [user_msg_line (S "b") (S "9"), user_msg_line (S "a") (S "4")]
        (S "p") 0).events
    ∧ parse_session [user_msg_line (S "b") (S "9"), user_msg_line (S "a") (S "4")]
        (S "p") 0
      = parse_session [user_msg_line (S "b") (S "9"), user_msg_line (S "a") (S "4")]
        (S "p") 0 :=
  ⟨(C3_timeline_order [user_msg_line (S "b") (S "9"), user_msg_line (S "a") (S "4")]
      (S "p") 0).1,
   (C3_timeline_order [user_msg_line (S "b") (S "9"), user_msg_line (S "a") (S "4")]
      (S "p") 0).2.2 _ rfl⟩

theorem decoded_objs_length :
    ∀ lines : List Line, (decoded_objs lines).length = lines.countP line_valid := by
  intro lines
  induction lines with
  | nil => rfl
  | cons l ls ih =>
    cases l <;> simp [decoded_objs, line_obj, List.filterMap_cons, List.countP_cons,
      line_valid] at ih ⊢ <;> omega

/-- C4 (amended): blank and malformed lines are skipped *silently* — the
decode loop emits no warning in any branch — and skipping is complete:
parsing a line list equals parsing only its decodable lines, and the number
of processed records is the number of decodable lines; processing never
fails. -/
theorem C4_silent_skip (lines : List Line) (path : Str) (mc : Nat) :
    parse_session (lines.filter line_valid) path mc = parse_session lines path mc
    ∧ decode_warnings lines = []
    ∧ (decoded_objs lines).length = lines.countP line_valid :=
  ⟨parse_session_filter_valid lines path mc, decode_warnings_nil lines,
   decoded_objs_length lines⟩

/-- The spec's 20-line file with a malformed line in position 5. -/
def c4cex : List Line :=
  List.replicate 4 (user_msg_line (S "a") (S "1")) ++ Line.malformed ::
    List.replicate 15 (user_msg_line (S "a") (S "1"))

/-- C4 counterexample: one malformed line among 20 yields 19 processed
records and *zero* warnings — not the claimed one warning naming the line:
the source's decode-failure handler is a bare `continue`. -/
theorem C4_counterexample :
    c4cex.length = 20
    ∧ (decoded_objs c4cex).length = 19
    ∧ decode_warnings c4cex = []
    ∧ (decode_warnings c4cex).length ≠ 1 := by decide

/-- C5 (amended): a summary built by the text summarizer is single-line,
whitespace-collapsed, and bounded by the configured limit (at most
`max max_len 12`; the classifier's message/reasoning events use 120), but
summaries of events that embed payload fields verbatim — tool calls in
particular — are not bounded and may span lines (see the counterexample). -/
theorem C5_summary_bounds (lines : List Line) (path : Str) (mc : Nat) :
    (∀ (s : Str) (n : Nat), 3 ≤ n →
        '\n' ∉ summarize_text s n ∧ (summarize_text s n).length ≤ max n 12)
    ∧ (∀ e ∈ (parse_session lines path mc).events, text_summarized e →
        '\n' ∉ e.summary ∧ e.summary.length ≤ 120) := by
  refine ⟨fun s n h3 => ⟨summarize_text_no_nl s n, summarize_text_length s n h3⟩, ?_⟩
  intro e he ht
  exact (parse_session_events_props he).2.2 ht

instance : DecidablePred text_summarized := fun e => by
  unfold text_summarized
  infer_instance

/-- The one event of a session holding a single `hi` user message. -/
def c5ev : Event :=
  { index := 0, ts := S "3", epoch := 3, category := CATEGORY_USER,
    source := S "event_msg", kind := S "user_message", role := S "user",
    name := [], summary := S "hi", details := S "hi",
    event_type := EVENT_USER, error := false }

/-- C5 witness: the bounds evaluated on a concrete text and on the concrete
user event of a one-record session. -/
theorem C5_witness :
    ('\n' ∉ summarize_text (S "hi  there") 70
      ∧ (summarize_text (S "hi  there") 70).length ≤ max 70 12)
    ∧ ('\n' ∉ c5ev.summary ∧ c5ev.summary.length ≤ 120) :=
  ⟨(C5_summary_bounds [] (S "p") 0).1 (S "hi  there") 70 (by decide),
   (C5_summary_bounds [user_msg_line (S "hi") (S "3")] (S "p") 0).2 c5ev
     (by decide) (by decide)⟩

/-- A 131-character, two-line command argument. -/
def c5cmd : Str := '\n' :: List.replicate 130 'a'

set_option maxRecDepth 4000 in
/-- C5 counterexample: a `tool_use` event whose summary embeds the tool name
and the `command` argument verbatim: the summary exceeds 120 characters and
contains a newline, refuting the bound for "every event". -/
theorem C5_counterexample :
    ((parse_session [function_call_line (S "shell")
        (JVal.jobj [(S "command", JVal.jstr c5cmd)]) (S "c1") (S "1")]
        (S "p") 0).events.map (fun e => e.summary))
      = [S "shell: command=" ++ c5cmd]
    ∧ (S "shell: command=" ++ c5cmd).length > 120
    ∧ '\n' ∈ S "shell: command=" ++ c5cmd := by decide

/-- C8 (amended): the session bounds are the minimum and maximum of the
timestamps of *all decoded records* (whether or not a record yields a
timeline event); the rendered duration is the unknown marker `?` unless both
bounds are present; and when both are present the start never exceeds the
end, so the duration is rendered through the non-negative branch — no
exception can arise. -/
theorem C8_session_bounds (lines : List Line) (path : Str) (mc : Nat) :
    (∀ a, (parse_session lines path mc).start_ts = some a →
        a ∈ lines.filterMap line_ts ∧ ∀ t ∈ lines.filterMap line_ts, a ≤ t)
    ∧ (∀ b, (parse_session lines path mc).end_ts = some b →
        b ∈ lines.filterMap line_ts ∧ ∀ t ∈ lines.filterMap line_ts, t ≤ b)
    ∧ (∀ a b, (parse_session lines path mc).start_ts = some a →
        (parse_session lines path mc).end_ts = some b →
        a ≤ b ∧ (parse_session lines path mc).duration
          = minutes_tenths (b - a) ++ ['m'])
    ∧ ((parse_session lines path mc).start_ts = none →
        lines.filterMap line_ts = [])
    ∧ ((parse_session lines path mc).start_ts = none
        ∨ (parse_session lines path mc).end_ts = none →
        (parse_session lines path mc).duration = S "?") := by
  have hs : (parse_session lines path mc).start_ts
      = (lines.filterMap line_ts).foldl min_step none := by
    show session_first_ts lines = _
    unfold session_first_ts
    exact session_first_ts_eq_foldl lines none
  have he : (parse_session lines path mc).end_ts
      = (lines.filterMap line_ts).foldl max_step none := by
    show session_last_ts lines = _
    unfold session_last_ts
    exact session_last_ts_eq_foldl lines none
  have hdur : (parse_session lines path mc).duration
      = format_duration (parse_session lines path mc).start_ts
          (parse_session lines path mc).end_ts := rfl
  refine ⟨?_, ?_, ?_, ?_, ?_⟩
  · intro a ha
    rw [hs] at ha
    rcases foldl_min_step_spec _ none a ha with ⟨hm | hm, hall, _⟩
    · exact ⟨hm, hall⟩
    · exact absurd hm (by simp)
  · intro b hb
    rw [he] at hb
    rcases foldl_max_step_spec _ none b hb with ⟨hm | hm, hall, _⟩
    · exact ⟨hm, hall⟩
    · exact absurd hm (by simp)
  · intro a b ha hb
    have hmem : b ∈ lines.filterMap line_ts := by
      rw [he] at hb
      rcases foldl_max_step_spec _ none b hb with ⟨hm | hm, _, _⟩
      · exact hm
      · exact absurd hm (by simp)
    have hall : ∀ t ∈ lines.filterMap line_ts, a ≤ t := by
      rw [hs] at ha
      rcases foldl_min_step_spec _ none a ha with ⟨_, hall, _⟩
      exact hall
    have hab : a ≤ b := hall b hmem
    refine ⟨hab, ?_⟩
    rw [hdur, ha, hb]
    simp only [format_duration]
    rw [if_neg (by omega)]
  · intro h0
    rw [hs] at h0
    exact (foldl_min_step_none _ none h0).1
  · intro h0
    rcases h0 with h0 | h0
    · rw [hdur, h0]
      cases (parse_session lines path mc).end_ts <;> rfl
    · rw [hdur, h0]
      cases (parse_session lines path mc).start_ts <;> rfl

/-- The session records for the C8 witness: user messages at epochs 3 and 10. -/
def c8wit : List Line :=
  [user_msg_line (S "hi") (S "3"), user_msg_line (S "bye") (S "10")]

/-- C8 witness: the bound characterization evaluated on a concrete
two-record session. -/
theorem C8_witness :
    (3 ∈ c8wit.filterMap line_ts ∧ ∀ t ∈ c8wit.filterMap line_ts, 3 ≤ t)
    ∧ 3 ≤ 10
    ∧ (parse_session c8wit (S "p") 0).duration = minutes_tenths (10 - 3) ++ ['m'] := by
  refine ⟨(C8_session_bounds c8wit (S "p") 0).1 3 (by decide), ?_, ?_⟩
  · exact ((C8_session_bounds c8wit (S "p") 0).2.2.1 3 10 (by decide) (by decide)).1
  · exact ((C8_session_bounds c8wit (S "p") 0).2.2.1 3 10 (by decide) (by decide)).2

/-- The C8 counterexample records: an unrecognized-type record at epoch 5
(which yields no event) and a user message at epoch 10. -/
def c8cex : List Line := [bogus_type_line (S "5"), user_msg_line (S "hi") (S "10")]

/-- C8 counterexample: the session start is 5, taken from a record that
produced *no* timeline event; the minimum of the timestamps of the events the
session contains is 10 — refuting "startTime equals the minimum of the
timestamps of the events it contains". -/
theorem C8_counterexample :
    (parse_session c8cex (S "p") 0).start_ts = some 5
    ∧ ((parse_session c8cex (S "p") 0).events.map (fun e => e.epoch)) = [10]
    ∧ (5 : Nat) ≠ 10 := by decide

/-- C9: digest generation is a deterministic function of the built session:
equal sessions yield byte-identical digest text. -/
theorem C9_digest_deterministic (s t : Session) (h : s = t) :
    generate_digest s = generate_digest t := by rw [h]

/-- The session built from a single `hi` user message at epoch 3, written out
as an explicit record. -/
def c9demo : Session :=
  { id := S "p", cwd := none, start_ts := some 3, end_ts := some 3,
    duration := S "0.0m", user_messages := [S "hi"], assistant_messages := [],
    model := none, cli_version := none, summary := S "hi", events := [c5ev] }

/-- C9 witness: the digest of a freshly parsed session is byte-identical to
the digest of the same session value written out literally (the hypothesis is
discharged by evaluating the parser). -/
theorem C9_witness :
    generate_digest (parse_session [user_msg_line (S "hi") (S "3")] (S "p") 0)
      = generate_digest c9demo :=
  C9_digest_deterministic _ _ (by decide)

/-- C10 (amended): the text summarizer never returns an empty summary — it
substitutes the fixed placeholder for text that collapses to nothing — and
every event placed on the timeline has a nonempty summary *except* a
`post_tool_use` (tool result) event, whose summary is empty exactly when the
tool output is the empty string (see the counterexample). -/
theorem C10_nonempty_summary (lines : List Line) (path : Str) (mc : Nat) :
    (∀ (s : Str) (n : Nat), summarize_text s n ≠ []
        ∧ (collapse_ws s = [] → summarize_text s n = S "(no summary)"))
    ∧ (∀ e ∈ (parse_session lines path mc).events, e.summary = [] →
        e.event_type = EVENT_POST_TOOL) := by
  refine ⟨fun s n => ⟨summarize_text_ne_nil s n, ?_⟩, ?_⟩
  · intro h
    unfold summarize_text
    dsimp only
    rw [if_pos h]
  · intro e he hsum
    exact (parse_session_events_props he).2.1 hsum

/-- The empty-output tool-result event of the C10 witness session. -/
def c10ev : Event :=
  { index := 0, ts := S "1", epoch := 1, category := CATEGORY_TOOL,
    source := S "response_item", kind := S "function_call_output", role := [],
    name := S "c1", summary := [], details := [],
    event_type := EVENT_POST_TOOL, error := false }

/-- C10 witness: the placeholder substitution evaluated on whitespace, and
the only-empty-summary-kind fact evaluated on the concrete empty-output
event. -/
theorem C10_witness :
    summarize_text (S "   ") 70 = S "(no summary)"
    ∧ c10ev.event_type = EVENT_POST_TOOL :=
  ⟨((C10_nonempty_summary [] (S "p") 0).1 (S "   ") 70).2 (by decide),
   (C10_nonempty_summary [function_call_output_line (S "c1") [] (S "1")] (S "p") 0).2
     c10ev (by decide) (by decide)⟩

/-- C10 counterexample: a tool result whose output is the empty string is
placed on the timeline with an *empty* summary — no placeholder is
substituted for this event kind. -/
theorem C10_counterexample :
    ((parse_session [function_call_output_line (S "c1") [] (S "1")]
        (S "p") 0).events.map (fun e => e.summary)) = [[]] := by decide
